import Mathlib

/-!
# Path tracer traversal statistics (`Source/RenderPasses/PathTracer/Logging.cpp`)

A shallow embedding of the `Logging` class of the path tracer render pass and proofs about
its frame protocol (`begin`, `end`, `renderUI`, `getStats`, `getRayCountBuffer`).

Conventions of the embedding.

* A `SharedPtr` is an `Option`: `none` is `nullptr`.
* `uint32_t` values are natural numbers; the one multiplication of the file that can wrap
  (`mFrameDim.x * mFrameDim.y`) is taken modulo `2 ^ 32`.
* `float` values are rationals. The conversion of a `uint32_t` to `float` rounds to the
  nearest single-precision value (`uint32ToFloat`); the division of two `float` values is
  exact division (the rounding of the quotient is left out).
* Every member function returns an `Outcome`: normal return, a failed `assert`, the
  exception thrown by `begin`, or a dereferenced null pointer. The last three end the
  program (the exception is fatal: nothing in the render pass catches it), so no state is
  carried on.
* Calls into the host engine are recorded, in program order, as a list of `Event`s.
* What the host engine decides (whether a creation succeeds, what an uninitialised
  resource contains, what the user does with the checkbox) is an explicit argument.
-/

namespace PathTracer

/-! ## Host engine objects -/

/-- Result of running a member function. -/
inductive Outcome (α : Type) where
  | ok (a : α)
  | assertFailed (condition : String)
  | threw (what : String)
  | nullDeref (pointer : String)

/-- Sequencing: a failure ends the program. -/
def Outcome.bind {α β : Type} : Outcome α → (α → Outcome β) → Outcome β
  | .ok a, f => f a
  | .assertFailed c, _ => .assertFailed c
  | .threw w, _ => .threw w
  | .nullDeref p, _ => .nullDeref p

/-- The call raised a C++ exception. -/
def Outcome.raised {α : Type} : Outcome α → Bool
  | .threw _ => true
  | _ => false

/-- The call dereferenced a null pointer. -/
def Outcome.derefNull {α : Type} : Outcome α → Bool
  | .nullDeref _ => true
  | _ => false

/-- The modulus of `uint32_t` arithmetic. -/
def uint32Mod : Nat := 2 ^ 32

/-- Distance between neighbouring single-precision values around `n`: 1 below `2 ^ 24`,
doubling with every further bit (a `uint32_t` is below `2 ^ 32`, so `fuel = 8` halvings
reach every case). -/
def floatUlp : Nat → Nat → Nat
  | 0, _ => 1
  | fuel + 1, n => if n < 2 ^ 24 then 1 else 2 * floatUlp fuel (n / 2)

/-- The value of `(float)n` for a `uint32_t` `n`: the nearest value with a 24-bit significand,
a tie going to the even significand. Exact up to `2 ^ 24`. -/
def uint32ToFloat (n : Nat) : Nat :=
  let ulp := floatUlp 8 n
  let q := n / ulp
  let r := n % ulp
  if 2 * r < ulp then q * ulp
  else if ulp < 2 * r then (q + 1) * ulp
  else if q % 2 = 0 then q * ulp
  else (q + 1) * ulp

/-- A `glm::uvec2`. -/
structure UVec2 where
  x : Nat
  y : Nat
deriving DecidableEq

/-- A `uint4`. -/
structure UInt4 where
  x : Nat
  y : Nat
  z : Nat
  w : Nat
deriving DecidableEq

/-- The counters `Logging::Stats`: total rays, average rays per pixel, average path length. -/
structure Stats where
  totalRays : Nat
  avgRaysPerPixel : ℚ
  avgPathLength : ℚ
deriving DecidableEq

/-- Modelled from the spec: `Logging.h` is not part of the sources; `Stats()` is the
value-initialised counter struct, all three counters zero. -/
def Stats.zero : Stats := ⟨0, 0, 0⟩

/-- A texture object: its identity on the device and its immutable size. The texels live
in the `RenderContext`, so that every holder of the pointer sees the same contents. -/
structure Texture where
  id : Nat
  width : Nat
  height : Nat
deriving DecidableEq

/-- Device state reached through `RenderContext`: the texels of every texture
(`texels id x y`) and the identity the next created texture gets. -/
structure RenderContext where
  texels : Nat → Nat → Nat → Nat
  nextTexture : Nat

/-- Modelled from the spec: `Texture::create2D` of the host engine with no initial data.
`result` is what the engine decides: `none` when creation fails (a null pointer), otherwise
the uninitialised contents of the new texture. -/
def Texture.create2D (ctx : RenderContext) (width height : Nat)
    (result : Option (Nat → Nat → Nat)) : RenderContext × Option Texture :=
  match result with
  | none => (ctx, none)
  | some c =>
    ({ texels := fun i => if i = ctx.nextTexture then c else ctx.texels i,
       nextTexture := ctx.nextTexture + 1 },
     some ⟨ctx.nextTexture, width, height⟩)

/-- Modelled from the spec: `RenderContext::clearUAV` on an `R32Uint` texture writes the
first component of the clear value to every texel. -/
def RenderContext.clearUAV (ctx : RenderContext) (tex : Texture) (value : UInt4) :
    RenderContext :=
  { ctx with texels := fun i => if i = tex.id then fun _ _ => value.x else ctx.texels i }

/-- Work of the device outside this module (the ray tracing dispatch between `begin` and
`end`): the texels of texture `id` are overwritten. -/
def RenderContext.gpuWrite (ctx : RenderContext) (id : Nat) (contents : Nat → Nat → Nat) :
    RenderContext :=
  { ctx with texels := fun i => if i = id then contents else ctx.texels i }

/-- Sum of all texels of a texture. -/
def RenderContext.texelSum (ctx : RenderContext) (tex : Texture) : Nat :=
  ((List.range tex.height).map
    (fun y => ((List.range tex.width).map (fun x => ctx.texels tex.id x y)).sum)).sum

/-- A buffer: its size in bytes and its contents as 32-bit words (`words i` is the word at
byte offset `4 * i`). -/
structure Buffer where
  size : Nat
  words : Nat → Nat

/-- Modelled from the spec: `Buffer::create` of the host engine; `contents` is what the
uninitialised buffer holds. The module uses the result unchecked. -/
def Buffer.create (size : Nat) (contents : Nat → Nat) : Buffer := ⟨size, contents⟩

/-- A `uint4` is stored at a byte offset: four consecutive words. -/
def Buffer.writeUInt4 (b : Buffer) (offset : Nat) (v : UInt4) : Buffer :=
  { b with words := fun i =>
      if i = offset / 4 then v.x
      else if i = offset / 4 + 1 then v.y
      else if i = offset / 4 + 2 then v.z
      else if i = offset / 4 + 3 then v.w
      else b.words i }

/-- Element `index` of the mapped buffer read as `const uint4*`. -/
def Buffer.readUInt4 (b : Buffer) (index : Nat) : UInt4 :=
  ⟨b.words (4 * index), b.words (4 * index + 1), b.words (4 * index + 2),
    b.words (4 * index + 3)⟩

/-- The parallel reduction helper; it has no state of its own. -/
inductive ComputeParallelReduction where
  | mk
deriving DecidableEq

/-- Modelled from the spec: `ComputeParallelReduction::execute<uint4>` with `Type::Sum` on an
`R32Uint` texture: the sum of the texels in `uint32_t` arithmetic in the first component,
zero in the others, copied to `pResultBuffer` at byte offset `resultOffset`. -/
def ComputeParallelReduction.execute (_self : ComputeParallelReduction) (ctx : RenderContext)
    (pInput : Texture) (pResultBuffer : Buffer) (resultOffset : Nat) : Buffer :=
  pResultBuffer.writeUInt4 resultOffset ⟨ctx.texelSum pInput % uint32Mod, 0, 0, 0⟩

/-- A GPU fence: the number of signals inserted into the command queue so far. -/
structure GpuFence where
  signals : Nat
deriving DecidableEq

/-- Modelled from the spec: `GpuFence::create` of the host engine. The module uses the
result unchecked. -/
def GpuFence.create : GpuFence := ⟨0⟩

/-- Inserting a signal into the command queue. -/
def GpuFence.gpuSignal (f : GpuFence) : GpuFence := ⟨f.signals + 1⟩

/-- The defines of a ray tracing program. -/
structure RtProgram where
  defines : String → Option String

/-- Adding or replacing a define. -/
def RtProgram.addDefine (p : RtProgram) (name value : String) : RtProgram :=
  ⟨fun n => if n = name then some value else p.defines n⟩

/-- The global shader variables of a program: the texture bound to each name. -/
structure RtProgramVars where
  globals : String → Option Texture

/-- Binding a texture pointer to a global shader variable (`pGlobalVars[name] = pTexture`). -/
def RtProgramVars.setTexture (v : RtProgramVars) (name : String) (t : Option Texture) :
    RtProgramVars :=
  ⟨fun n => if n = name then t else v.globals n⟩

/-- Calls into the host engine, in program order. -/
inductive Event where
  | addDefine (name value : String)
  | createReduction
  | createBuffer (size : Nat)
  | createTexture (width height : Nat)
  | clearUAV (texture : Nat)
  | bindTexture (name : String) (texture : Nat)
  | createFence
  | reduceSum (texture : Nat) (resultOffset : Nat)
  | flush
  | gpuSignal
  | syncCpu
  | mapRead
  | unmap
  | checkbox (label : String)
  | tooltip
  | text (stats : Stats)
  | logWarning (message : String)
deriving DecidableEq

/-- The CPU waits on the fence. -/
def Event.isSyncCpu : Event → Bool
  | .syncCpu => true
  | _ => false

/-- The readback buffer is mapped. -/
def Event.isMapRead : Event → Bool
  | .mapRead => true
  | _ => false

/-- A fence signal is inserted. -/
def Event.isGpuSignal : Event → Bool
  | .gpuSignal => true
  | _ => false

/-- A warning is logged. -/
def Event.isWarning : Event → Bool
  | .logWarning _ => true
  | _ => false

/-- A texture is created, cleared or bound. -/
def Event.touchesTexture : Event → Bool
  | .createTexture _ _ => true
  | .clearUAV _ => true
  | .bindTexture _ _ => true
  | _ => false

/-- A texture is created. -/
def Event.isCreateTexture : Event → Bool
  | .createTexture _ _ => true
  | _ => false

/-! ## The class `Logging` -/

/-- The members of `Logging`. -/
structure Logging where
  mpParallelReduction : Option ComputeParallelReduction
  mpReductionResult : Option Buffer
  mpFence : Option GpuFence
  mStatsEnabled : Bool
  mRunning : Bool
  mWaitingForData : Bool
  mFrameDim : UVec2
  mStatsValid : Bool
  mStatsBuffersValid : Bool
  mStats : Stats
  mpStatsRayCount : Option Texture
  mpStatsPathLength : Option Texture

/-- Modelled from the spec: `Logging::create` returns `new Logging()`; the member
declarations (`Logging.h`) are not part of the sources. Pointers start null, the flags
false, the counters zero; the initial state of the "Traversal stats" checkbox is not
known and is the parameter `statsEnabled`. -/
def Logging.create (statsEnabled : Bool) : Logging :=
  { mpParallelReduction := none
    mpReductionResult := none
    mpFence := none
    mStatsEnabled := statsEnabled
    mRunning := false
    mWaitingForData := false
    mFrameDim := ⟨0, 0⟩
    mStatsValid := false
    mStatsBuffersValid := false
    mStats := Stats.zero
    mpStatsRayCount := none
    mpStatsPathLength := none }

/-- What the host engine decides during one call of `begin`. -/
structure BeginEnv where
  /-- Result of `ComputeParallelReduction::create()`. -/
  reduction : Option ComputeParallelReduction
  /-- Uninitialised contents of the readback buffer. -/
  bufferContents : Nat → Nat
  /-- Result of the first `Texture::create2D`. -/
  rayCount : Option (Nat → Nat → Nat)
  /-- Result of the second `Texture::create2D`. -/
  pathLength : Option (Nat → Nat → Nat)

/-- What `begin` leaves behind. -/
structure BeginResult where
  self : Logging
  ctx : RenderContext
  program : RtProgram
  vars : RtProgramVars
  events : List Event

/-- Lines 55-61 of `begin`: create the parallel reduction helper and the readback buffer. -/
def Logging.createReduction (self : Logging) (env : BeginEnv) :
    Outcome (Logging × List Event) :=
  match self.mpParallelReduction with
  | some _ => .ok (self, [])
  | none =>
    match env.reduction with
    | none => .threw "Failed to create ComputeParallelReduction object"
    | some r =>
      .ok ({ self with
              mpParallelReduction := some r
              mpReductionResult := some (Buffer.create 32 env.bufferContents) },
           [Event.createReduction, Event.createBuffer 32])

/-- The condition of line 64: the ray count texture is missing or has another size. -/
def Logging.needsNewTextures (self : Logging) (frameDim : UVec2) : Bool :=
  match self.mpStatsRayCount with
  | none => true
  | some t => t.width != frameDim.x || t.height != frameDim.y

/-- Lines 64-68 of `begin`: prepare the stats textures. -/
def Logging.prepareTextures (self : Logging) (ctx : RenderContext) (frameDim : UVec2)
    (env : BeginEnv) : Logging × RenderContext × List Event :=
  if self.needsNewTextures frameDim then
    let r := Texture.create2D ctx frameDim.x frameDim.y env.rayCount
    let p := Texture.create2D r.1 frameDim.x frameDim.y env.pathLength
    ({ self with mpStatsRayCount := r.2, mpStatsPathLength := p.2 }, p.1,
     [Event.createTexture frameDim.x frameDim.y, Event.createTexture frameDim.x frameDim.y])
  else (self, ctx, [])

/-- Lines 70-76 of `begin`: clear both textures and bind them to the shader variables. -/
def Logging.clearAndBind (self : Logging) (ctx : RenderContext) (program : RtProgram)
    (pVars : RtProgramVars) (events : List Event) : Outcome BeginResult :=
  match self.mpStatsRayCount, self.mpStatsPathLength with
  | some ray, some path =>
    .ok { self := self
          ctx := (ctx.clearUAV ray ⟨0, 0, 0, 0⟩).clearUAV path ⟨0, 0, 0, 0⟩
          program := program
          vars := (pVars.setTexture "gStatsRayCount" (some ray)).setTexture
                    "gStatsPathLength" (some path)
          events := events ++
            [Event.clearUAV ray.id, Event.clearUAV path.id,
             Event.bindTexture "gStatsRayCount" ray.id,
             Event.bindTexture "gStatsPathLength" path.id] }
  | _, _ => .assertFailed "mpStatsRayCount && mpStatsPathLength"

/-- The function `Logging::begin`. -/
def Logging.begin (self : Logging) (pRenderContext : RenderContext) (pProgram : RtProgram)
    (pVars : RtProgramVars) (frameDim : UVec2) (env : BeginEnv) : Outcome BeginResult :=
  if self.mRunning then .assertFailed "!mRunning" else
  let s1 := { self with mRunning := true, mWaitingForData := false, mFrameDim := frameDim }
  let value := if s1.mStatsEnabled then "1" else "0"
  let program := pProgram.addDefine "_LOGGING_ENABLE_STATS" value
  let s2 := { s1 with mStats := Stats.zero, mStatsValid := false, mStatsBuffersValid := false }
  if s2.mStatsEnabled then
    (s2.createReduction env).bind fun (s3, ev3) =>
      let (s4, ctx4, ev4) := s3.prepareTextures pRenderContext frameDim env
      s4.clearAndBind ctx4 program pVars
        (Event.addDefine "_LOGGING_ENABLE_STATS" value :: (ev3 ++ ev4))
  else
    .ok { self := s2
          ctx := pRenderContext
          program := program
          vars := pVars
          events := [Event.addDefine "_LOGGING_ENABLE_STATS" value] }

/-- The function `Logging::end`. The new fence is the result of `GpuFence::create()`. A null
texture or a null result buffer handed to `execute` counts as a null dereference, like the
null helper on which `execute` is called. -/
def Logging.end_ (self : Logging) (pRenderContext : RenderContext) :
    Outcome (Logging × List Event) :=
  if !self.mRunning then .assertFailed "mRunning" else
  let s1 := { self with mRunning := false }
  if s1.mStatsEnabled then
    let (fence, ev1) :=
      match s1.mpFence with
      | some f => (f, [])
      | none => (GpuFence.create, [Event.createFence])
    match s1.mpParallelReduction, s1.mpStatsRayCount, s1.mpStatsPathLength,
        s1.mpReductionResult with
    | none, _, _, _ => .nullDeref "mpParallelReduction"
    | some _, none, _, _ => .nullDeref "mpStatsRayCount"
    | some _, some _, none, _ => .nullDeref "mpStatsPathLength"
    | some _, some _, some _, none => .nullDeref "mpReductionResult"
    | some red, some ray, some path, some buf =>
      let buf1 := red.execute pRenderContext ray buf 0
      let buf2 := red.execute pRenderContext path buf1 16
      .ok ({ s1 with
              mpFence := some fence.gpuSignal
              mpReductionResult := some buf2
              mStatsBuffersValid := true
              mWaitingForData := true },
           ev1 ++ [Event.reduceSum ray.id 0, Event.reduceSum path.id 16, Event.flush,
                   Event.gpuSignal])
  else .ok (s1, [])

/-- The function `Logging::copyStatsToCPU`. Mapping the buffer succeeds (`assert(data)` holds);
`numPixels` is the `uint32_t` product of the frame dimensions. In the two averages the total
is cast to `float` and `numPixels` is converted to `float` for the division, both with
rounding; the quotient of the two `float` values is taken exactly. -/
def Logging.copyStatsToCPU (self : Logging) : Outcome (Logging × List Event) :=
  if self.mRunning then .assertFailed "!mRunning" else
  if self.mWaitingForData then
    match self.mpFence with
    | none => .nullDeref "mpFence"
    | some _ =>
      let s1 := { self with mWaitingForData := false }
      if s1.mStatsEnabled then
        match s1.mpReductionResult with
        | none => .nullDeref "mpReductionResult"
        | some buf =>
          let totalRayCount := (buf.readUInt4 0).x
          let totalPathLength := (buf.readUInt4 1).x
          let numPixels := (s1.mFrameDim.x * s1.mFrameDim.y) % uint32Mod
          if numPixels = 0 then .assertFailed "numPixels > 0" else
          .ok ({ s1 with
                  mStats := { totalRays := totalRayCount
                              avgRaysPerPixel :=
                                (uint32ToFloat totalRayCount : ℚ) /
                                  (uint32ToFloat numPixels : ℚ)
                              avgPathLength :=
                                (uint32ToFloat totalPathLength : ℚ) /
                                  (uint32ToFloat numPixels : ℚ) }
                  mStatsValid := true },
               [Event.syncCpu, Event.mapRead, Event.unmap])
      else .ok (s1, [Event.syncCpu])
  else .ok (self, [])

/-- The function `Logging::renderUI`. `checked` is the value of `mStatsEnabled` after the
checkbox widget has run (the user may or may not have clicked it). -/
def Logging.renderUI (self : Logging) (checked : Bool) : Outcome (Logging × List Event) :=
  let s1 := { self with mStatsEnabled := checked }
  s1.copyStatsToCPU.bind fun (s2, ev) =>
    .ok (s2, [Event.checkbox "Traversal stats", Event.tooltip] ++ ev ++
              (if s2.mStatsValid then [Event.text s2.mStats] else []))

/-- What `getStats` leaves behind: the return value, the caller's `stats` argument, the
object and the calls made. -/
structure GetStatsResult where
  ret : Bool
  stats : Stats
  self : Logging
  events : List Event

/-- The function `Logging::getStats`. -/
def Logging.getStats (self : Logging) (stats : Stats) : Outcome GetStatsResult :=
  self.copyStatsToCPU.bind fun (s1, ev) =>
    if !s1.mStatsValid then
      .ok { ret := false, stats := stats, self := s1,
            events := ev ++ [Event.logWarning
              "Logging::getStats() - Stats are not valid. Ignoring."] }
    else .ok { ret := true, stats := s1.mStats, self := s1, events := ev }

/-- The function `Logging::getRayCountBuffer`. -/
def Logging.getRayCountBuffer (self : Logging) : Outcome (Option Texture) :=
  if self.mRunning then .assertFailed "!mRunning" else
  .ok (if self.mStatsBuffersValid then self.mpStatsRayCount else none)

/-! ## The render pass around the module -/

/-- The module together with the host engine objects its member functions are handed. -/
structure System where
  logging : Logging
  ctx : RenderContext
  program : RtProgram
  vars : RtProgramVars

/-- A freshly created `Logging` object in an arbitrary host engine state. -/
def System.initial (statsEnabled : Bool) (ctx : RenderContext) (program : RtProgram)
    (vars : RtProgramVars) : System :=
  ⟨Logging.create statsEnabled, ctx, program, vars⟩

/-- What the render pass does with the module, and what the device does in between. -/
inductive Call where
  | begin (frameDim : UVec2) (env : BeginEnv)
  | end_
  | renderUI (checked : Bool)
  | getStats (stats : Stats)
  | getRayCountBuffer
  | gpuWrite (id : Nat) (contents : Nat → Nat → Nat)

/-- One call: the state after it and the host engine calls it made. -/
def System.step (σ : System) : Call → Outcome (System × List Event)
  | .begin frameDim env =>
    (σ.logging.begin σ.ctx σ.program σ.vars frameDim env).bind fun r =>
      .ok (⟨r.self, r.ctx, r.program, r.vars⟩, r.events)
  | .end_ => (σ.logging.end_ σ.ctx).bind fun (s, ev) => .ok ({ σ with logging := s }, ev)
  | .renderUI checked =>
    (σ.logging.renderUI checked).bind fun (s, ev) => .ok ({ σ with logging := s }, ev)
  | .getStats stats =>
    (σ.logging.getStats stats).bind fun r => .ok ({ σ with logging := r.self }, r.events)
  | .getRayCountBuffer => σ.logging.getRayCountBuffer.bind fun _ => .ok (σ, [])
  | .gpuWrite id contents => .ok ({ σ with ctx := σ.ctx.gpuWrite id contents }, [])

/-- A sequence of calls, each made in the state the previous one left. -/
def System.run : System → List Call → Outcome (System × List Event)
  | σ, [] => .ok (σ, [])
  | σ, c :: cs =>
    (σ.step c).bind fun (σ1, ev1) =>
      (System.run σ1 cs).bind fun (σ2, ev2) => .ok (σ2, ev1 ++ ev2)

/-- A state the module can be in: reached from a freshly created object by calls that all
returned (none failed an assertion, threw or crashed). -/
def Reachable (σ : System) : Prop :=
  ∃ statsEnabled ctx program vars calls events,
    (System.initial statsEnabled ctx program vars).run calls = .ok (σ, events)

/-- The states before each call of a sequence, paired with the call, as far as the calls
return. -/
def System.history : System → List Call → List (System × Call)
  | _, [] => []
  | σ, c :: cs =>
    match σ.step c with
    | .ok (σ1, _) => (σ, c) :: System.history σ1 cs
    | _ => [(σ, c)]

/-- Is the call a `begin`? -/
def Call.isBegin : Call → Bool
  | .begin _ _ => true
  | _ => false

/-- The words of the specification, read off a history: a frame has been ended with
statistics enabled since the last `begin`, that is, some `end` was called in a state with
`mStatsEnabled` set and no `begin` was called after it. -/
def endedWithStatsSinceBegin : List (System × Call) → Bool
  | [] => false
  | (σ, c) :: rest =>
    if rest.any (fun e => e.2.isBegin) then endedWithStatsSinceBegin rest
    else
      endedWithStatsSinceBegin rest ||
        (match c with
         | .end_ => σ.logging.mStatsEnabled
         | _ => false)

/-- The resources and flags of the module are consistent. -/
structure Logging.Inv (s : Logging) : Prop where
  buffer_of_reduction : s.mpParallelReduction.isSome = true →
    ∃ b, s.mpReductionResult = some b ∧ b.size = 32
  textures_paired : ∀ r, s.mpStatsRayCount = some r →
    ∃ p, s.mpStatsPathLength = some p ∧ p.width = r.width ∧ p.height = r.height ∧ p.id ≠ r.id
  running_enabled : s.mRunning = true → s.mStatsEnabled = true →
    s.mpParallelReduction.isSome = true ∧
      ∃ r, s.mpStatsRayCount = some r ∧ r.width = s.mFrameDim.x ∧ r.height = s.mFrameDim.y
  buffers_valid : s.mStatsBuffersValid = true →
    s.mpParallelReduction.isSome = true ∧
      ∃ r, s.mpStatsRayCount = some r ∧ r.width = s.mFrameDim.x ∧ r.height = s.mFrameDim.y
  waiting : s.mWaitingForData = true →
    s.mpFence.isSome = true ∧ s.mStatsBuffersValid = true
  valid : s.mStatsValid = true → s.mStatsBuffersValid = true ∧ s.mWaitingForData = false
  running : s.mRunning = true →
    s.mStatsValid = false ∧ s.mStatsBuffersValid = false ∧ s.mWaitingForData = false

/-! ## Definitions used in the statements and proofs -/

/-- The members after lines 41-50 of `begin`. -/
def Logging.frameReset (s : Logging) (d : UVec2) : Logging :=
  { s with
      mRunning := true, mWaitingForData := false, mFrameDim := d, mStats := Stats.zero,
      mStatsValid := false, mStatsBuffersValid := false }

/-- The events of an `end` with statistics enabled. -/
def endEvents (s : Logging) (ray path : Texture) : List Event :=
  (if s.mpFence.isSome then [] else [Event.createFence]) ++
    [Event.reduceSum ray.id 0, Event.reduceSum path.id 16, Event.flush, Event.gpuSignal]

/-- The value `copyStatsToCPU` computes for `numPixels`. -/
def Logging.numPixels (s : Logging) : Nat := (s.mFrameDim.x * s.mFrameDim.y) % uint32Mod

/-- The counters `copyStatsToCPU` stores for the totals `totalRayCount` and `totalPathLength`
and the pixel count `numPixels`. -/
def storedStats (totalRayCount totalPathLength numPixels : Nat) : Stats :=
  { totalRays := totalRayCount
    avgRaysPerPixel := (uint32ToFloat totalRayCount : ℚ) / (uint32ToFloat numPixels : ℚ)
    avgPathLength := (uint32ToFloat totalPathLength : ℚ) / (uint32ToFloat numPixels : ℚ) }

/-- The counters `copyStatsToCPU` stores when it reads `buf`. -/
def Logging.readStats (s : Logging) (buf : Buffer) : Stats :=
  storedStats (buf.readUInt4 0).x (buf.readUInt4 1).x s.numPixels

/-- Every creation the host engine is asked for during `begin` succeeds. -/
def BeginEnv.succeeds (env : BeginEnv) : Prop :=
  env.reduction.isSome = true ∧ env.rayCount.isSome = true ∧ env.pathLength.isSome = true

/-- The device overwrites textures, one after the other. -/
def RenderContext.gpuWrites (ctx : RenderContext) :
    List (Nat × (Nat → Nat → Nat)) → RenderContext
  | [] => ctx
  | w :: ws => (ctx.gpuWrite w.1 w.2).gpuWrites ws

/-- The warning `getStats` logs. -/
def statsWarning : Event := Event.logWarning "Logging::getStats() - Stats are not valid. Ignoring."

/-- The pending readback can be carried out: the fence is there, and with the checkbox set
the readback buffer is there and the pixel count is not zero. -/
def Logging.readbackSafe (s : Logging) : Prop :=
  s.mWaitingForData = true →
    s.mpFence.isSome = true ∧
      (s.mStatsEnabled = true → s.mpReductionResult.isSome = true ∧ s.numPixels ≠ 0)

/-- A call made between `end` and the next `begin`. -/
inductive UiCall where
  | renderUI (checked : Bool)
  | getStats (stats : Stats)

/-- Is the call a `getStats`? -/
def UiCall.isGetStats : UiCall → Bool
  | .getStats _ => true
  | .renderUI _ => false

/-- One call; a `getStats` yields its return value and the caller's value after it. -/
def Logging.ui (s : Logging) : UiCall → Outcome (Logging × List (Bool × Stats))
  | .renderUI checked => (s.renderUI checked).bind fun (s1, _) => .ok (s1, [])
  | .getStats stats => (s.getStats stats).bind fun g => .ok (g.self, [(g.ret, g.stats)])

/-- A sequence of calls; the results of the `getStats` calls, in order. -/
def Logging.uiRun : Logging → List UiCall → Outcome (Logging × List (Bool × Stats))
  | s, [] => .ok (s, [])
  | s, c :: cs =>
    (s.ui c).bind fun (s1, res1) =>
      (Logging.uiRun s1 cs).bind fun (s2, res2) => .ok (s2, res1 ++ res2)

/-- The stats of a frame have been read back. -/
def Logging.holds (s : Logging) (stats : Stats) : Prop :=
  s.mRunning = false ∧ s.mWaitingForData = false ∧ s.mStatsValid = true ∧ s.mStats = stats

/-- Number of pending readbacks: 1 while `mWaitingForData` is set. -/
def Logging.pending (s : Logging) : Nat := if s.mWaitingForData then 1 else 0

/-- Stored valid stats are the averages over the pixel count of the stored frame dimensions. -/
def Logging.StatsInv (s : Logging) : Prop :=
  s.mStatsValid = true →
    s.numPixels ≠ 0 ∧
    s.mStats.avgRaysPerPixel =
      (uint32ToFloat s.mStats.totalRays : ℚ) / (uint32ToFloat s.numPixels : ℚ)

/-! ## Concrete objects for the examples -/

/-- A device with no texture yet. -/
def emptyContext : RenderContext := ⟨fun _ _ _ => 0, 0⟩

/-- A program without defines. -/
def emptyProgram : RtProgram := ⟨fun _ => none⟩

/-- Program variables without bindings. -/
def emptyVars : RtProgramVars := ⟨fun _ => none⟩

/-- A host engine in which every creation succeeds. -/
def goodEnv : BeginEnv := ⟨some .mk, fun _ => 0, some (fun _ _ => 0), some (fun _ _ => 0)⟩

/-- A freshly created object with the checkbox set, in an empty host engine. -/
def freshEnabled : System := System.initial true emptyContext emptyProgram emptyVars

/-- The value of a call that returned, `fallback` otherwise. -/
def Outcome.getD {α : Type} (o : Outcome α) (fallback : α) : α :=
  match o with
  | .ok a => a
  | _ => fallback

/-- What the first `begin` of `freshEnabled` leaves behind, for a 2 x 2 frame. -/
def firstBegin : BeginResult :=
  (freshEnabled.logging.begin freshEnabled.ctx freshEnabled.program freshEnabled.vars ⟨2, 2⟩
    goodEnv).getD ⟨freshEnabled.logging, emptyContext, emptyProgram, emptyVars, []⟩

/-- The state after the first `begin` of `freshEnabled`, for a 2 x 2 frame. -/
def afterBegin : System :=
  ((freshEnabled.step (.begin ⟨2, 2⟩ goodEnv)).getD (freshEnabled, [])).1

/-- The state after `begin; end` of `freshEnabled`, for a 2 x 2 frame. -/
def afterEnd : System := ((afterBegin.step .end_).getD (afterBegin, [])).1

/-- The state after `begin; end; getStats` of `freshEnabled`, for a 2 x 2 frame. -/
def afterGetStats : System :=
  ((afterEnd.step (.getStats Stats.zero)).getD (afterEnd, [])).1

/-! ## Preservation of the invariant -/

theorem create_inv (b : Bool) : (Logging.create b).Inv := by
  constructor <;> simp [Logging.create]

theorem copyStatsToCPU_inv (s : Logging) (s1 : Logging) (ev : List Event) (h : s.Inv)
    (hc : s.copyStatsToCPU = .ok (s1, ev)) : s1.Inv := by
  unfold Logging.copyStatsToCPU at hc
  obtain ⟨h1, h2, h3, h4, h5, h6, h7⟩ := h
  split at hc
  · cases hc
  split at hc
  · split at hc
    · cases hc
    · dsimp only at hc
      split at hc
      · split at hc
        · cases hc
        · split at hc
          · cases hc
          · cases hc
            constructor <;> simp_all
      · cases hc
        constructor <;> simp_all
  · cases hc
    constructor <;> assumption

theorem begin_disabled (s : Logging) (ctx : RenderContext) (prog : RtProgram)
    (vars : RtProgramVars) (d : UVec2) (env : BeginEnv) (hr : s.mRunning = false)
    (he : s.mStatsEnabled = false) :
    s.begin ctx prog vars d env =
      .ok { self := s.frameReset d, ctx := ctx,
            program := prog.addDefine "_LOGGING_ENABLE_STATS" "0", vars := vars,
            events := [Event.addDefine "_LOGGING_ENABLE_STATS" "0"] } := by
  simp [Logging.begin, hr, he, Logging.frameReset]

theorem begin_enabled (s : Logging) (ctx : RenderContext) (prog : RtProgram)
    (vars : RtProgramVars) (d : UVec2) (env : BeginEnv) (hr : s.mRunning = false)
    (he : s.mStatsEnabled = true) :
    s.begin ctx prog vars d env =
      ((s.frameReset d).createReduction env).bind fun p =>
        (p.1.prepareTextures ctx d env).1.clearAndBind (p.1.prepareTextures ctx d env).2.1
          (prog.addDefine "_LOGGING_ENABLE_STATS" "1") vars
          (Event.addDefine "_LOGGING_ENABLE_STATS" "1" ::
            (p.2 ++ (p.1.prepareTextures ctx d env).2.2)) := by
  simp [Logging.begin, hr, he, Logging.frameReset]

theorem createReduction_ok (s s3 : Logging) (env : BeginEnv) (ev : List Event)
    (h : s.createReduction env = .ok (s3, ev)) :
    (∃ red, s.mpParallelReduction = some red ∧ s3 = s ∧ ev = []) ∨
    (s.mpParallelReduction = none ∧ ∃ red, env.reduction = some red ∧
      s3 = { s with mpParallelReduction := some red
                    mpReductionResult := some (Buffer.create 32 env.bufferContents) } ∧
      ev = [Event.createReduction, Event.createBuffer 32]) := by
  unfold Logging.createReduction at h
  split at h
  · rename_i red hred
    cases h
    exact Or.inl ⟨red, hred, rfl, rfl⟩
  · rename_i hnone
    split at h
    · cases h
    · rename_i red hred
      cases h
      exact Or.inr ⟨hnone, red, hred, rfl, rfl⟩

theorem needsNewTextures_false (s : Logging) (d : UVec2) (h : s.needsNewTextures d = false) :
    ∃ t, s.mpStatsRayCount = some t ∧ t.width = d.x ∧ t.height = d.y := by
  unfold Logging.needsNewTextures at h
  split at h
  · cases h
  · rename_i t ht
    refine ⟨t, ht, ?_⟩
    simpa using h

theorem clearAndBind_ok (s : Logging) (ctx : RenderContext) (prog : RtProgram)
    (vars : RtProgramVars) (ev : List Event) (r : BeginResult)
    (h : s.clearAndBind ctx prog vars ev = .ok r) :
    ∃ ray path, s.mpStatsRayCount = some ray ∧ s.mpStatsPathLength = some path ∧
      r = { self := s
            ctx := (ctx.clearUAV ray ⟨0, 0, 0, 0⟩).clearUAV path ⟨0, 0, 0, 0⟩
            program := prog
            vars := (vars.setTexture "gStatsRayCount" (some ray)).setTexture
                      "gStatsPathLength" (some path)
            events := ev ++
              [Event.clearUAV ray.id, Event.clearUAV path.id,
               Event.bindTexture "gStatsRayCount" ray.id,
               Event.bindTexture "gStatsPathLength" path.id] } := by
  unfold Logging.clearAndBind at h
  split at h
  · rename_i ray path hray hpath
    cases h
    exact ⟨ray, path, hray, hpath, rfl⟩
  · cases h

theorem bind_ok {α β : Type} (o : Outcome α) (f : α → Outcome β) (b : β)
    (h : o.bind f = .ok b) : ∃ a, o = .ok a ∧ f a = .ok b := by
  cases o with
  | ok a => exact ⟨a, rfl, h⟩
  | assertFailed c => cases h
  | threw w => cases h
  | nullDeref p => cases h

/-- Complete description of a `begin` that returns with statistics enabled. -/
theorem begin_enabled_ok (s : Logging) (ctx : RenderContext) (prog : RtProgram)
    (vars : RtProgramVars) (d : UVec2) (env : BeginEnv) (r : BeginResult)
    (hr : s.mRunning = false) (he : s.mStatsEnabled = true)
    (hb : s.begin ctx prog vars d env = .ok r) :
    ∃ red buf ray path ctx1 evR evT,
      ((s.mpParallelReduction = some red ∧ buf = s.mpReductionResult ∧ evR = []) ∨
       (s.mpParallelReduction = none ∧ env.reduction = some red ∧
         buf = some (Buffer.create 32 env.bufferContents) ∧
         evR = [Event.createReduction, Event.createBuffer 32])) ∧
      ((s.needsNewTextures d = false ∧ s.mpStatsRayCount = some ray ∧
          s.mpStatsPathLength = some path ∧ ctx1 = ctx ∧ evT = []) ∨
       (s.needsNewTextures d = true ∧ ∃ c1 c2, env.rayCount = some c1 ∧
          env.pathLength = some c2 ∧ ray = ⟨ctx.nextTexture, d.x, d.y⟩ ∧
          path = ⟨ctx.nextTexture + 1, d.x, d.y⟩ ∧
          ctx1 = (Texture.create2D (Texture.create2D ctx d.x d.y (some c1)).1 d.x d.y
                    (some c2)).1 ∧
          evT = [Event.createTexture d.x d.y, Event.createTexture d.x d.y])) ∧
      r = { self := { s.frameReset d with
                        mpParallelReduction := some red, mpReductionResult := buf,
                        mpStatsRayCount := some ray, mpStatsPathLength := some path }
            ctx := (ctx1.clearUAV ray ⟨0, 0, 0, 0⟩).clearUAV path ⟨0, 0, 0, 0⟩
            program := prog.addDefine "_LOGGING_ENABLE_STATS" "1"
            vars := (vars.setTexture "gStatsRayCount" (some ray)).setTexture
                      "gStatsPathLength" (some path)
            events := Event.addDefine "_LOGGING_ENABLE_STATS" "1" :: (evR ++ evT) ++
              [Event.clearUAV ray.id, Event.clearUAV path.id,
               Event.bindTexture "gStatsRayCount" ray.id,
               Event.bindTexture "gStatsPathLength" path.id] } := by
  rw [begin_enabled s ctx prog vars d env hr he] at hb
  obtain ⟨⟨s3, evR⟩, h1, h2⟩ := bind_ok _ _ _ hb
  dsimp only at h2
  have hn3 : s3.needsNewTextures d = s.needsNewTextures d := by
    rcases createReduction_ok _ _ _ _ h1 with ⟨_, _, rfl, _⟩ | ⟨_, _, _, rfl, _⟩ <;> rfl
  have hray3 : s3.mpStatsRayCount = s.mpStatsRayCount := by
    rcases createReduction_ok _ _ _ _ h1 with ⟨_, _, rfl, _⟩ | ⟨_, _, _, rfl, _⟩ <;> rfl
  have hpath3 : s3.mpStatsPathLength = s.mpStatsPathLength := by
    rcases createReduction_ok _ _ _ _ h1 with ⟨_, _, rfl, _⟩ | ⟨_, _, _, rfl, _⟩ <;> rfl
  cases hn : s.needsNewTextures d
  · -- the textures are kept
    have hp : s3.prepareTextures ctx d env = (s3, ctx, []) := by
      simp [Logging.prepareTextures, hn3, hn]
    rw [hp] at h2
    obtain ⟨ray, path, hray, hpath, rfl⟩ := clearAndBind_ok _ _ _ _ _ _ h2
    rw [hray3] at hray
    rw [hpath3] at hpath
    rcases createReduction_ok _ _ _ _ h1 with ⟨red, hred, rfl, rfl⟩ | ⟨hnone, red, hred, rfl, rfl⟩
    · refine ⟨red, s.mpReductionResult, ray, path, ctx, [], [], Or.inl ⟨hred, rfl, rfl⟩,
        Or.inl ⟨rfl, hray, hpath, rfl, rfl⟩, ?_⟩
      simp [Logging.frameReset, ← hred, ← hray, ← hpath]
    · refine ⟨red, _, ray, path, ctx, _, [], Or.inr ⟨hnone, hred, rfl, rfl⟩,
        Or.inl ⟨rfl, hray, hpath, rfl, rfl⟩, ?_⟩
      simp [Logging.frameReset, ← hray, ← hpath]
  · -- both textures are created anew
    have hp : s3.prepareTextures ctx d env =
        ({ s3 with mpStatsRayCount := (Texture.create2D ctx d.x d.y env.rayCount).2
                   mpStatsPathLength :=
                     (Texture.create2D (Texture.create2D ctx d.x d.y env.rayCount).1 d.x d.y
                       env.pathLength).2 },
         (Texture.create2D (Texture.create2D ctx d.x d.y env.rayCount).1 d.x d.y
            env.pathLength).1,
         [Event.createTexture d.x d.y, Event.createTexture d.x d.y]) := by
      simp [Logging.prepareTextures, hn3, hn]
    rw [hp] at h2
    obtain ⟨ray, path, hray, hpath, rfl⟩ := clearAndBind_ok _ _ _ _ _ _ h2
    dsimp only at hray hpath
    cases hc1 : env.rayCount with
    | none => simp [hc1, Texture.create2D] at hray
    | some c1 =>
      cases hc2 : env.pathLength with
      | none => simp [hc2, Texture.create2D] at hpath
      | some c2 =>
        have hray2 : ray = ⟨ctx.nextTexture, d.x, d.y⟩ := by
          simp [hc1, Texture.create2D] at hray
          exact hray.symm
        have hpath2 : path = ⟨ctx.nextTexture + 1, d.x, d.y⟩ := by
          simp [hc1, hc2, Texture.create2D] at hpath
          exact hpath.symm
        clear hb h2 hp
        rw [hc1] at hray
        rw [hc1, hc2] at hpath
        rcases createReduction_ok _ _ _ _ h1 with
          ⟨red, hred, rfl, rfl⟩ | ⟨hnone, red, hred, rfl, rfl⟩
        · refine ⟨red, s.mpReductionResult, ray, path, _, [], _, Or.inl ⟨hred, rfl, rfl⟩,
            Or.inr ⟨rfl, c1, c2, rfl, rfl, hray2, hpath2, rfl, rfl⟩, ?_⟩
          simp [Logging.frameReset, ← hred, hray, hpath, hc1, hc2]
        · refine ⟨red, _, ray, path, _, _, _, Or.inr ⟨hnone, hred, rfl, rfl⟩,
            Or.inr ⟨rfl, c1, c2, rfl, rfl, hray2, hpath2, rfl, rfl⟩, ?_⟩
          simp [Logging.frameReset, hray, hpath, hc1, hc2]

theorem begin_running (s : Logging) (ctx : RenderContext) (prog : RtProgram)
    (vars : RtProgramVars) (d : UVec2) (env : BeginEnv) (hr : s.mRunning = true) :
    s.begin ctx prog vars d env = .assertFailed "!mRunning" := by
  simp [Logging.begin, hr]

theorem begin_ok_not_running (s : Logging) (ctx : RenderContext) (prog : RtProgram)
    (vars : RtProgramVars) (d : UVec2) (env : BeginEnv) (r : BeginResult)
    (hb : s.begin ctx prog vars d env = .ok r) : s.mRunning = false := by
  cases hr : s.mRunning
  · rfl
  · rw [begin_running s ctx prog vars d env hr] at hb
    cases hb

theorem begin_inv_flags (s : Logging) (ctx : RenderContext) (prog : RtProgram)
    (vars : RtProgramVars) (d : UVec2) (env : BeginEnv) (r : BeginResult)
    (hb : s.begin ctx prog vars d env = .ok r) :
    r.self.mRunning = true ∧ r.self.mWaitingForData = false ∧ r.self.mFrameDim = d ∧
      r.self.mStats = Stats.zero ∧ r.self.mStatsValid = false ∧
      r.self.mStatsBuffersValid = false ∧ r.self.mStatsEnabled = s.mStatsEnabled ∧
      r.self.mpFence = s.mpFence := by
  have hr := begin_ok_not_running s ctx prog vars d env r hb
  rcases Bool.eq_false_or_eq_true s.mStatsEnabled with he | he
  · obtain ⟨red, buf, ray, path, ctx1, evR, evT, hR, hT, rfl⟩ :=
      begin_enabled_ok s ctx prog vars d env r hr he hb
    exact ⟨rfl, rfl, rfl, rfl, rfl, rfl, rfl, rfl⟩
  · rw [begin_disabled s ctx prog vars d env hr he] at hb
    cases hb
    exact ⟨rfl, rfl, rfl, rfl, rfl, rfl, rfl, rfl⟩

theorem begin_inv (s : Logging) (ctx : RenderContext) (prog : RtProgram) (vars : RtProgramVars)
    (d : UVec2) (env : BeginEnv) (r : BeginResult) (h : s.Inv)
    (hb : s.begin ctx prog vars d env = .ok r) : r.self.Inv := by
  have hr := begin_ok_not_running s ctx prog vars d env r hb
  obtain ⟨h1, h2, h3, h4, h5, h6, h7⟩ := h
  cases he : s.mStatsEnabled
  · rw [begin_disabled s ctx prog vars d env hr he] at hb
    cases hb
    constructor <;> simp [Logging.frameReset, he]
    · simpa using h1
    · simpa using h2
  · obtain ⟨red, buf, ray, path, ctx1, evR, evT, hR, hT, rfl⟩ :=
      begin_enabled_ok s ctx prog vars d env r hr he hb
    constructor <;> simp [Logging.frameReset, he]
    · rcases hR with ⟨hred, rfl, _⟩ | ⟨_, _, rfl, _⟩
      · exact h1 (by simp [hred])
      · exact ⟨_, rfl, rfl⟩
    · rcases hT with ⟨hn, hray, hpath, _⟩ | ⟨_, c1, c2, _, _, rfl, rfl, _⟩
      · obtain ⟨p, hp, hw⟩ := h2 ray hray
        rw [hpath] at hp
        cases hp
        exact hw
      · simp
    · rcases hT with ⟨hn, hray, hpath, _⟩ | ⟨_, c1, c2, _, _, rfl, rfl, _⟩
      · obtain ⟨t, ht, hw⟩ := needsNewTextures_false s d hn
        rw [hray] at ht
        cases ht
        exact hw
      · simp

theorem end_not_running (s : Logging) (ctx : RenderContext) (hr : s.mRunning = false) :
    s.end_ ctx = .assertFailed "mRunning" := by
  simp [Logging.end_, hr]

theorem end_disabled (s : Logging) (ctx : RenderContext) (hr : s.mRunning = true)
    (he : s.mStatsEnabled = false) :
    s.end_ ctx = .ok ({ s with mRunning := false }, []) := by
  simp [Logging.end_, hr, he]

theorem end_enabled (s : Logging) (ctx : RenderContext) (red : ComputeParallelReduction)
    (ray path : Texture) (buf : Buffer) (hr : s.mRunning = true)
    (he : s.mStatsEnabled = true) (hred : s.mpParallelReduction = some red)
    (hray : s.mpStatsRayCount = some ray) (hpath : s.mpStatsPathLength = some path)
    (hbuf : s.mpReductionResult = some buf) :
    s.end_ ctx =
      .ok ({ s with
              mRunning := false
              mpFence := some (s.mpFence.getD GpuFence.create).gpuSignal
              mpReductionResult :=
                some (red.execute ctx path (red.execute ctx ray buf 0) 16)
              mStatsBuffersValid := true
              mWaitingForData := true },
           endEvents s ray path) := by
  cases hf : s.mpFence <;>
    simp [Logging.end_, hr, he, hred, hray, hpath, hbuf, hf, endEvents]

/-- Complete description of an `end` that returns. -/
theorem end_ok (s s1 : Logging) (ctx : RenderContext) (ev : List Event)
    (h : s.end_ ctx = .ok (s1, ev)) :
    s.mRunning = true ∧
    ((s.mStatsEnabled = false ∧ s1 = { s with mRunning := false } ∧ ev = []) ∨
     (s.mStatsEnabled = true ∧ ∃ red ray path buf,
        s.mpParallelReduction = some red ∧ s.mpStatsRayCount = some ray ∧
        s.mpStatsPathLength = some path ∧ s.mpReductionResult = some buf ∧
        s1 = { s with
                mRunning := false
                mpFence := some (s.mpFence.getD GpuFence.create).gpuSignal
                mpReductionResult :=
                  some (red.execute ctx path (red.execute ctx ray buf 0) 16)
                mStatsBuffersValid := true
                mWaitingForData := true } ∧
        ev = endEvents s ray path)) := by
  cases hr : s.mRunning
  · rw [end_not_running s ctx hr] at h
    cases h
  refine ⟨rfl, ?_⟩
  rcases Bool.eq_false_or_eq_true s.mStatsEnabled with he | he
  · right
    refine ⟨he, ?_⟩
    rcases Option.eq_none_or_eq_some s.mpParallelReduction with hred | ⟨red, hred⟩
    · simp [Logging.end_, hr, he, hred] at h
    rcases Option.eq_none_or_eq_some s.mpStatsRayCount with hray | ⟨ray, hray⟩
    · simp [Logging.end_, hr, he, hred, hray] at h
    rcases Option.eq_none_or_eq_some s.mpStatsPathLength with hpath | ⟨path, hpath⟩
    · simp [Logging.end_, hr, he, hred, hray, hpath] at h
    rcases Option.eq_none_or_eq_some s.mpReductionResult with hbuf | ⟨buf, hbuf⟩
    · simp [Logging.end_, hr, he, hred, hray, hpath, hbuf] at h
    rw [end_enabled s ctx red ray path buf hr he hred hray hpath hbuf] at h
    cases h
    exact ⟨red, ray, path, buf, hred, hray, hpath, hbuf, rfl, rfl⟩
  · rw [end_disabled s ctx hr he] at h
    cases h
    exact Or.inl ⟨he, rfl, rfl⟩

theorem end_inv (s s1 : Logging) (ctx : RenderContext) (ev : List Event) (h : s.Inv)
    (he : s.end_ ctx = .ok (s1, ev)) : s1.Inv := by
  obtain ⟨h1, h2, h3, h4, h5, h6, h7⟩ := h
  obtain ⟨hr, ⟨hen, rfl, _⟩ | ⟨hen, red, ray, path, buf, hred, hray, hpath, hbuf, rfl, _⟩⟩ :=
    end_ok s s1 ctx ev he
  · obtain ⟨g1, g2, g3⟩ := h7 hr
    constructor <;> simp [g1, g2, g3]
    · simpa using h1
    · simpa using h2
  · obtain ⟨g1, g2, g3⟩ := h7 hr
    obtain ⟨_, g4⟩ := h3 hr hen
    constructor <;> simp [g1, g2, g3, hred]
    · simp [ComputeParallelReduction.execute, Buffer.writeUInt4]
      have := h1 (by simp [hred])
      rw [hbuf] at this
      simpa using this
    · simpa using h2
    · simpa using g4

theorem copy_running (s : Logging) (hr : s.mRunning = true) :
    s.copyStatsToCPU = .assertFailed "!mRunning" := by
  simp [Logging.copyStatsToCPU, hr]

theorem copy_idle (s : Logging) (hr : s.mRunning = false) (hw : s.mWaitingForData = false) :
    s.copyStatsToCPU = .ok (s, []) := by
  simp [Logging.copyStatsToCPU, hr, hw]

theorem copy_disabled (s : Logging) (f : GpuFence) (hr : s.mRunning = false)
    (hw : s.mWaitingForData = true) (hf : s.mpFence = some f) (he : s.mStatsEnabled = false) :
    s.copyStatsToCPU = .ok ({ s with mWaitingForData := false }, [Event.syncCpu]) := by
  simp [Logging.copyStatsToCPU, hr, hw, hf, he]

theorem copy_enabled (s : Logging) (f : GpuFence) (buf : Buffer) (hr : s.mRunning = false)
    (hw : s.mWaitingForData = true) (hf : s.mpFence = some f) (he : s.mStatsEnabled = true)
    (hbuf : s.mpReductionResult = some buf) (hn : s.numPixels ≠ 0) :
    s.copyStatsToCPU =
      .ok ({ s with mWaitingForData := false, mStats := s.readStats buf, mStatsValid := true },
           [Event.syncCpu, Event.mapRead, Event.unmap]) := by
  unfold Logging.numPixels at hn
  simp [Logging.copyStatsToCPU, hr, hw, hf, he, hbuf, hn, Logging.readStats, Logging.numPixels,
    storedStats]

theorem copy_enabled_zero (s : Logging) (f : GpuFence) (buf : Buffer) (hr : s.mRunning = false)
    (hw : s.mWaitingForData = true) (hf : s.mpFence = some f) (he : s.mStatsEnabled = true)
    (hbuf : s.mpReductionResult = some buf) (hn : s.numPixels = 0) :
    s.copyStatsToCPU = .assertFailed "numPixels > 0" := by
  unfold Logging.numPixels at hn
  simp [Logging.copyStatsToCPU, hr, hw, hf, he, hbuf, hn]

/-- Complete description of a `copyStatsToCPU` that returns. -/
theorem copy_ok (s s1 : Logging) (ev : List Event) (h : s.copyStatsToCPU = .ok (s1, ev)) :
    s.mRunning = false ∧
    ((s.mWaitingForData = false ∧ s1 = s ∧ ev = []) ∨
     (s.mWaitingForData = true ∧ s.mStatsEnabled = false ∧ (∃ f, s.mpFence = some f) ∧
        s1 = { s with mWaitingForData := false } ∧ ev = [Event.syncCpu]) ∨
     (s.mWaitingForData = true ∧ s.mStatsEnabled = true ∧ (∃ f, s.mpFence = some f) ∧
        s.numPixels ≠ 0 ∧ ∃ buf, s.mpReductionResult = some buf ∧
        s1 = { s with mWaitingForData := false, mStats := s.readStats buf,
                      mStatsValid := true } ∧
        ev = [Event.syncCpu, Event.mapRead, Event.unmap])) := by
  rcases Bool.eq_false_or_eq_true s.mRunning with hr | hr
  · rw [copy_running s hr] at h
    cases h
  refine ⟨hr, ?_⟩
  rcases Bool.eq_false_or_eq_true s.mWaitingForData with hw | hw
  swap
  · rw [copy_idle s hr hw] at h
    cases h
    exact Or.inl ⟨hw, rfl, rfl⟩
  right
  rcases Option.eq_none_or_eq_some s.mpFence with hf | ⟨f, hf⟩
  · simp [Logging.copyStatsToCPU, hr, hw, hf] at h
  rcases Bool.eq_false_or_eq_true s.mStatsEnabled with he | he
  swap
  · rw [copy_disabled s f hr hw hf he] at h
    cases h
    exact Or.inl ⟨hw, he, ⟨f, hf⟩, rfl, rfl⟩
  right
  rcases Option.eq_none_or_eq_some s.mpReductionResult with hbuf | ⟨buf, hbuf⟩
  · simp [Logging.copyStatsToCPU, hr, hw, hf, he, hbuf] at h
  by_cases hn : s.numPixels = 0
  · rw [copy_enabled_zero s f buf hr hw hf he hbuf hn] at h
    cases h
  · rw [copy_enabled s f buf hr hw hf he hbuf hn] at h
    cases h
    exact ⟨hw, he, ⟨f, hf⟩, hn, buf, hbuf, rfl, rfl⟩

theorem renderUI_inv (s s1 : Logging) (b : Bool) (ev : List Event) (h : s.Inv)
    (hu : s.renderUI b = .ok (s1, ev)) : s1.Inv := by
  unfold Logging.renderUI at hu
  obtain ⟨⟨s2, ev2⟩, hc, h2⟩ := bind_ok _ _ _ hu
  cases h2
  refine copyStatsToCPU_inv _ _ _ ?_ hc
  have hr : s.mRunning = false := (copy_ok _ _ _ hc).1
  obtain ⟨h1, h2, h3, h4, h5, h6, h7⟩ := h
  constructor <;> simp [hr]
  · simpa using h1
  · simpa using h2
  · simpa using h4
  · simpa using h5
  · simpa using h6

theorem getStats_inv (s : Logging) (out : Stats) (r : GetStatsResult) (h : s.Inv)
    (hg : s.getStats out = .ok r) : r.self.Inv := by
  unfold Logging.getStats at hg
  obtain ⟨⟨s2, ev2⟩, hc, h2⟩ := bind_ok _ _ _ hg
  have := copyStatsToCPU_inv _ _ _ h hc
  dsimp only at h2
  split at h2 <;> cases h2 <;> exact this

theorem step_inv (σ σ1 : System) (c : Call) (ev : List Event) (h : σ.logging.Inv)
    (hs : σ.step c = .ok (σ1, ev)) : σ1.logging.Inv := by
  cases c with
  | begin d env =>
    obtain ⟨r, hb, h2⟩ := bind_ok _ _ _ hs
    cases h2
    exact begin_inv _ _ _ _ _ _ _ h hb
  | end_ =>
    obtain ⟨⟨s, e⟩, hb, h2⟩ := bind_ok _ _ _ hs
    cases h2
    exact end_inv _ _ _ _ h hb
  | renderUI b =>
    obtain ⟨⟨s, e⟩, hb, h2⟩ := bind_ok _ _ _ hs
    cases h2
    exact renderUI_inv _ _ _ _ h hb
  | getStats out =>
    obtain ⟨r, hb, h2⟩ := bind_ok _ _ _ hs
    cases h2
    exact getStats_inv _ _ _ h hb
  | getRayCountBuffer =>
    obtain ⟨r, hb, h2⟩ := bind_ok _ _ _ hs
    cases h2
    exact h
  | gpuWrite id contents =>
    cases hs
    exact h

theorem run_cons_ok (σ σ2 : System) (c : Call) (cs : List Call) (ev : List Event)
    (h : σ.run (c :: cs) = .ok (σ2, ev)) :
    ∃ σ1 ev1 ev2, σ.step c = .ok (σ1, ev1) ∧ σ1.run cs = .ok (σ2, ev2) ∧ ev = ev1 ++ ev2 := by
  unfold System.run at h
  obtain ⟨⟨σ1, ev1⟩, h1, h2⟩ := bind_ok _ _ _ h
  obtain ⟨⟨σ3, ev2⟩, h3, h4⟩ := bind_ok _ _ _ h2
  cases h4
  exact ⟨σ1, ev1, ev2, h1, h3, rfl⟩

theorem run_inv (cs : List Call) (σ σ1 : System) (ev : List Event) (h : σ.logging.Inv)
    (hs : σ.run cs = .ok (σ1, ev)) : σ1.logging.Inv := by
  induction cs generalizing σ ev with
  | nil =>
    cases hs
    exact h
  | cons c cs ih =>
    obtain ⟨σ2, ev1, ev2, h1, h2, _⟩ := run_cons_ok _ _ _ _ _ hs
    exact ih σ2 ev2 (step_inv _ _ _ _ h h1) h2

theorem reachable_inv (σ : System) (h : Reachable σ) : σ.logging.Inv := by
  obtain ⟨b, ctx, prog, vars, cs, ev, hrun⟩ := h
  exact run_inv cs _ _ _ (create_inv b) hrun

theorem clearAndBind_some (s : Logging) (ctx : RenderContext) (prog : RtProgram)
    (vars : RtProgramVars) (ev : List Event) (ray path : Texture)
    (hray : s.mpStatsRayCount = some ray) (hpath : s.mpStatsPathLength = some path) :
    ∃ r, s.clearAndBind ctx prog vars ev = .ok r := by
  simp [Logging.clearAndBind, hray, hpath]

theorem begin_enabled_succeeds (s : Logging) (ctx : RenderContext) (prog : RtProgram)
    (vars : RtProgramVars) (d : UVec2) (env : BeginEnv) (h : s.Inv)
    (hr : s.mRunning = false) (he : s.mStatsEnabled = true)
    (hred : s.mpParallelReduction.isSome = true ∨ env.reduction.isSome = true)
    (htex : s.needsNewTextures d = true →
      env.rayCount.isSome = true ∧ env.pathLength.isSome = true) :
    ∃ r, s.begin ctx prog vars d env = .ok r := by
  rw [begin_enabled s ctx prog vars d env hr he]
  have hc : ∃ s3 ev3, (s.frameReset d).createReduction env = .ok (s3, ev3) ∧
      s3.mpStatsRayCount = s.mpStatsRayCount ∧ s3.mpStatsPathLength = s.mpStatsPathLength := by
    rcases Option.eq_none_or_eq_some s.mpParallelReduction with hn | ⟨red, hs⟩
    · rw [hn] at hred
      obtain ⟨red, hred2⟩ : ∃ red, env.reduction = some red := by
        rcases hred with hred | hred
        · cases hred
        · exact Option.isSome_iff_exists.mp hred
      have hcr : (s.frameReset d).createReduction env =
          .ok ({ s.frameReset d with
                  mpParallelReduction := some red
                  mpReductionResult := some (Buffer.create 32 env.bufferContents) },
               [Event.createReduction, Event.createBuffer 32]) := by
        simp [Logging.createReduction, Logging.frameReset, hn, hred2]
      exact ⟨_, _, hcr, rfl, rfl⟩
    · have hcr : (s.frameReset d).createReduction env = .ok (s.frameReset d, []) := by
        simp [Logging.createReduction, Logging.frameReset, hs]
      exact ⟨_, _, hcr, rfl, rfl⟩
  obtain ⟨s3, ev3, hc, hray3, hpath3⟩ := hc
  rw [hc]
  simp only [Outcome.bind]
  have hn3 : s3.needsNewTextures d = s.needsNewTextures d := by
    simp [Logging.needsNewTextures, hray3]
  rcases Bool.eq_false_or_eq_true (s.needsNewTextures d) with hn | hn
  · obtain ⟨⟨c1, hc1⟩, ⟨c2, hc2⟩⟩ :
        (∃ c, env.rayCount = some c) ∧ ∃ c, env.pathLength = some c :=
      ⟨Option.isSome_iff_exists.mp (htex hn).1, Option.isSome_iff_exists.mp (htex hn).2⟩
    apply clearAndBind_some _ _ _ _ _ ⟨ctx.nextTexture, d.x, d.y⟩ ⟨ctx.nextTexture + 1, d.x, d.y⟩
    · simp [Logging.prepareTextures, hn3, hn, hc1, Texture.create2D]
    · simp [Logging.prepareTextures, hn3, hn, hc1, hc2, Texture.create2D]
  · obtain ⟨t, ht, _⟩ := needsNewTextures_false s d hn
    obtain ⟨p, hp, _⟩ := h.textures_paired t ht
    apply clearAndBind_some _ _ _ _ _ t p
    · simp [Logging.prepareTextures, hn3, hn, hray3, ht]
    · simp [Logging.prepareTextures, hn3, hn, hpath3, hp]

theorem getStats_of_copy (s s1 : Logging) (out : Stats) (ev : List Event)
    (hc : s.copyStatsToCPU = .ok (s1, ev)) :
    s.getStats out =
      .ok (if s1.mStatsValid then ⟨true, s1.mStats, s1, ev⟩
           else ⟨false, out, s1, ev ++ [statsWarning]⟩) := by
  unfold Logging.getStats
  rw [hc]
  cases hv : s1.mStatsValid <;> simp [Outcome.bind, hv, statsWarning]

theorem getStats_ok (s : Logging) (out : Stats) (g : GetStatsResult)
    (h : s.getStats out = .ok g) :
    ∃ ev, s.copyStatsToCPU = .ok (g.self, ev) ∧
      g = (if g.self.mStatsValid then ⟨true, g.self.mStats, g.self, ev⟩
           else ⟨false, out, g.self, ev ++ [statsWarning]⟩) := by
  have h0 := h
  unfold Logging.getStats at h
  obtain ⟨⟨s1, ev⟩, hc, _⟩ := bind_ok _ _ _ h
  rw [getStats_of_copy s s1 out ev hc] at h0
  cases hv : s1.mStatsValid
  · rw [hv] at h0
    simp only [Bool.false_eq_true, if_false] at h0
    cases h0
    exact ⟨ev, hc, by simp [hv]⟩
  · rw [hv] at h0
    simp only [if_true] at h0
    cases h0
    exact ⟨ev, hc, by simp [hv]⟩

theorem readUInt4_after_end (red : ComputeParallelReduction) (ctx : RenderContext)
    (ray path : Texture) (buf : Buffer) :
    ((red.execute ctx path (red.execute ctx ray buf 0) 16).readUInt4 0).x =
        ctx.texelSum ray % uint32Mod ∧
    ((red.execute ctx path (red.execute ctx ray buf 0) 16).readUInt4 1).x =
        ctx.texelSum path % uint32Mod := by
  simp [ComputeParallelReduction.execute, Buffer.writeUInt4, Buffer.readUInt4]

/-! ## C1: the stats of a frame -/

/-- A frame `begin (x, y); end` with statistics enabled, the device writing the textures in
between: both calls return, and `end` leaves the two sums in the readback buffer with a
readback pending. -/
theorem frame_begin_end (σ : System) (x y : Nat) (env : BeginEnv)
    (writes : List (Nat × (Nat → Nat → Nat)))
    (hreach : Reachable σ) (hr : σ.logging.mRunning = false)
    (he : σ.logging.mStatsEnabled = true) (henv : env.succeeds) :
    ∃ r ray path s2 ev2 f buf,
      σ.logging.begin σ.ctx σ.program σ.vars ⟨x, y⟩ env = .ok r ∧
      r.self.mpStatsRayCount = some ray ∧ r.self.mpStatsPathLength = some path ∧
      r.self.end_ (r.ctx.gpuWrites writes) = .ok (s2, ev2) ∧
      s2.mRunning = false ∧ s2.mWaitingForData = true ∧ s2.mStatsEnabled = true ∧
      s2.mStatsValid = false ∧ s2.mFrameDim = ⟨x, y⟩ ∧
      s2.mpFence = some f ∧ s2.mpReductionResult = some buf ∧
      (buf.readUInt4 0).x = (r.ctx.gpuWrites writes).texelSum ray % uint32Mod ∧
      (buf.readUInt4 1).x = (r.ctx.gpuWrites writes).texelSum path % uint32Mod := by
  have hinv := reachable_inv σ hreach
  obtain ⟨r, hb⟩ := begin_enabled_succeeds σ.logging σ.ctx σ.program σ.vars ⟨x, y⟩ env hinv hr he
    (Or.inr henv.1) (fun _ => henv.2)
  have hinv1 := begin_inv _ _ _ _ _ _ _ hinv hb
  obtain ⟨red, buf, ray, path, ctx1, evR, evT, hR, hT, rfl⟩ :=
    begin_enabled_ok _ _ _ _ _ _ _ hr he hb
  obtain ⟨b, hbuf, _⟩ := hinv1.buffer_of_reduction rfl
  dsimp only at hbuf
  subst hbuf
  have hend := end_enabled
    { (Logging.frameReset σ.logging ⟨x, y⟩) with
        mpParallelReduction := some red
        mpReductionResult := some b
        mpStatsRayCount := some ray
        mpStatsPathLength := some path }
    (RenderContext.gpuWrites ((ctx1.clearUAV ray ⟨0, 0, 0, 0⟩).clearUAV path ⟨0, 0, 0, 0⟩)
      writes) red ray path b rfl he rfl rfl rfl rfl
  exact ⟨_, ray, path, _, _, _, _, hb, rfl, rfl, hend, rfl, rfl, he, rfl, rfl, rfl, rfl,
    (readUInt4_after_end red _ ray path b).1, (readUInt4_after_end red _ ray path b).2⟩

theorem uint32ToFloat_exact (n : Nat) (h : n ≤ 2 ^ 24) : uint32ToFloat n = n := by
  rcases Nat.eq_or_lt_of_le h with h | h
  · subst h
    decide
  · have hu : floatUlp 8 n = 1 := by
      show (if n < 2 ^ 24 then 1 else 2 * floatUlp 7 (n / 2)) = 1
      rw [if_pos h]
    simp [uint32ToFloat, hu, Nat.mod_one]

/-- C1 (as amended): from every reachable non-running state with statistics enabled, for every
frame dimension `(x, y)` with at least one and fewer than `2 ^ 32` pixels, every creation of the
host engine succeeding and whatever the device writes into the textures,
`begin (x, y); end; getStats` returns `true` with `totalRays = R`, where `R` and `P` are the
reduction results of the two textures. The averages stored are `float R / float (x * y)` and
`float P / float (x * y)`, the division taken exactly; they are `R / (x * y)` and
`P / (x * y)` whenever `R`, `P` and `x * y` are exactly representable as `float`, as every
value up to `2 ^ 24` is. -/
theorem frame_stats (σ : System) (x y : Nat) (env : BeginEnv)
    (writes : List (Nat × (Nat → Nat → Nat))) (out : Stats)
    (hreach : Reachable σ) (hr : σ.logging.mRunning = false)
    (he : σ.logging.mStatsEnabled = true) (hpos : 0 < x * y) (hlt : x * y < 2 ^ 32)
    (henv : env.succeeds) :
    ∃ r ray path s2 ev2 g,
      σ.logging.begin σ.ctx σ.program σ.vars ⟨x, y⟩ env = .ok r ∧
      r.self.mpStatsRayCount = some ray ∧ r.self.mpStatsPathLength = some path ∧
      r.self.end_ (r.ctx.gpuWrites writes) = .ok (s2, ev2) ∧
      s2.getStats out = .ok g ∧ g.ret = true ∧
      g.stats.totalRays = (r.ctx.gpuWrites writes).texelSum ray % 2 ^ 32 ∧
      g.stats.avgRaysPerPixel =
        (uint32ToFloat ((r.ctx.gpuWrites writes).texelSum ray % 2 ^ 32) : ℚ) /
          (uint32ToFloat (x * y) : ℚ) ∧
      g.stats.avgPathLength =
        (uint32ToFloat ((r.ctx.gpuWrites writes).texelSum path % 2 ^ 32) : ℚ) /
          (uint32ToFloat (x * y) : ℚ) ∧
      (uint32ToFloat (x * y) = x * y →
        (uint32ToFloat ((r.ctx.gpuWrites writes).texelSum ray % 2 ^ 32) =
            (r.ctx.gpuWrites writes).texelSum ray % 2 ^ 32 →
          g.stats.avgRaysPerPixel =
            (((r.ctx.gpuWrites writes).texelSum ray % 2 ^ 32 : Nat) : ℚ) /
              ((x : ℚ) * (y : ℚ))) ∧
        (uint32ToFloat ((r.ctx.gpuWrites writes).texelSum path % 2 ^ 32) =
            (r.ctx.gpuWrites writes).texelSum path % 2 ^ 32 →
          g.stats.avgPathLength =
            (((r.ctx.gpuWrites writes).texelSum path % 2 ^ 32 : Nat) : ℚ) /
              ((x : ℚ) * (y : ℚ)))) ∧
      (x * y ≤ 2 ^ 24 → uint32ToFloat (x * y) = x * y) ∧
      ((r.ctx.gpuWrites writes).texelSum ray % 2 ^ 32 ≤ 2 ^ 24 →
        uint32ToFloat ((r.ctx.gpuWrites writes).texelSum ray % 2 ^ 32) =
          (r.ctx.gpuWrites writes).texelSum ray % 2 ^ 32) ∧
      ((r.ctx.gpuWrites writes).texelSum path % 2 ^ 32 ≤ 2 ^ 24 →
        uint32ToFloat ((r.ctx.gpuWrites writes).texelSum path % 2 ^ 32) =
          (r.ctx.gpuWrites writes).texelSum path % 2 ^ 32) := by
  obtain ⟨r, ray, path, s2, ev2, f, buf, hb, hray, hpath, hend, h1, h2, h3, _, h5, h6, h7, h8, h9⟩ :=
    frame_begin_end σ x y env writes hreach hr he henv
  have hnp : s2.numPixels = x * y := by
    simp only [Logging.numPixels, h5]
    exact Nat.mod_eq_of_lt hlt
  have hc := copy_enabled s2 f buf h1 h2 h6 h3 h7 (by rw [hnp]; omega)
  have hg := getStats_of_copy _ _ out _ hc
  have hR : (buf.readUInt4 0).x = (r.ctx.gpuWrites writes).texelSum ray % 2 ^ 32 := h8
  have hP : (buf.readUInt4 1).x = (r.ctx.gpuWrites writes).texelSum path % 2 ^ 32 := h9
  have hstats : s2.readStats buf =
      storedStats ((r.ctx.gpuWrites writes).texelSum ray % 2 ^ 32)
        ((r.ctx.gpuWrites writes).texelSum path % 2 ^ 32) (x * y) := by
    simp only [Logging.readStats, hnp, hR, hP]
  refine ⟨r, ray, path, s2, ev2, _, hb, hray, hpath, hend, hg, rfl, ?_, ?_, ?_, ?_,
    uint32ToFloat_exact _, uint32ToFloat_exact _, uint32ToFloat_exact _⟩
  · show (s2.readStats buf).totalRays = _
    rw [hstats]
    rfl
  · show (s2.readStats buf).avgRaysPerPixel = _
    rw [hstats]
    rfl
  · show (s2.readStats buf).avgPathLength = _
    rw [hstats]
    rfl
  · intro hn
    constructor
    · intro hx
      show (s2.readStats buf).avgRaysPerPixel = _
      rw [hstats]
      show ((uint32ToFloat _ : Nat) : ℚ) / ((uint32ToFloat (x * y) : Nat) : ℚ) = _
      rw [hx, hn]
      push_cast
      rfl
    · intro hx
      show (s2.readStats buf).avgPathLength = _
      rw [hstats]
      show ((uint32ToFloat _ : Nat) : ℚ) / ((uint32ToFloat (x * y) : Nat) : ℚ) = _
      rw [hx, hn]
      push_cast
      rfl

/-- With a pixel count that wraps to zero in `uint32_t`, the same frame ends in the failed
assertion `numPixels > 0` of the readback. -/
theorem frame_stats_wrapped (σ : System) (x y : Nat) (env : BeginEnv)
    (writes : List (Nat × (Nat → Nat → Nat))) (out : Stats)
    (hreach : Reachable σ) (hr : σ.logging.mRunning = false)
    (he : σ.logging.mStatsEnabled = true) (hz : (x * y) % 2 ^ 32 = 0)
    (henv : env.succeeds) :
    ∃ r s2 ev2,
      σ.logging.begin σ.ctx σ.program σ.vars ⟨x, y⟩ env = .ok r ∧
      r.self.end_ (r.ctx.gpuWrites writes) = .ok (s2, ev2) ∧
      s2.getStats out = .assertFailed "numPixels > 0" := by
  obtain ⟨r, ray, path, s2, ev2, f, buf, hb, hray, hpath, hend, h1, h2, h3, _, h5, h6, h7, h8, h9⟩ :=
    frame_begin_end σ x y env writes hreach hr he henv
  have hnp : s2.numPixels = 0 := by
    simp only [Logging.numPixels, h5]
    exact hz
  have hc := copy_enabled_zero s2 f buf h1 h2 h6 h3 h7 hnp
  refine ⟨r, s2, ev2, hb, hend, ?_⟩
  unfold Logging.getStats
  rw [hc]
  rfl

theorem reachable_initial (b : Bool) (ctx : RenderContext) (prog : RtProgram)
    (vars : RtProgramVars) : Reachable (System.initial b ctx prog vars) :=
  ⟨b, ctx, prog, vars, [], [], rfl⟩

theorem run_cons_eq (σ σ1 σ2 : System) (c : Call) (cs : List Call) (ev1 ev2 : List Event)
    (hs : σ.step c = .ok (σ1, ev1)) (hr : σ1.run cs = .ok (σ2, ev2)) :
    σ.run (c :: cs) = .ok (σ2, ev1 ++ ev2) := by
  show ((σ.step c).bind fun p =>
    (System.run p.1 cs).bind fun q => .ok (q.1, p.2 ++ q.2)) = _
  rw [hs]
  show ((System.run σ1 cs).bind fun q => .ok (q.1, ev1 ++ q.2)) = _
  rw [hr]
  rfl

theorem run_append (cs1 cs2 : List Call) (σ σ1 σ2 : System) (ev1 ev2 : List Event)
    (h1 : σ.run cs1 = .ok (σ1, ev1)) (h2 : σ1.run cs2 = .ok (σ2, ev2)) :
    σ.run (cs1 ++ cs2) = .ok (σ2, ev1 ++ ev2) := by
  induction cs1 generalizing σ ev1 with
  | nil =>
    cases h1
    simpa using h2
  | cons c cs ih =>
    obtain ⟨σ3, e1, e2, hs, hr, rfl⟩ := run_cons_ok _ _ _ _ _ h1
    have := run_cons_eq σ σ3 σ2 c (cs ++ cs2) e1 (e2 ++ ev2) hs (ih σ3 e2 hr)
    simpa using this

theorem reachable_run (σ σ1 : System) (cs : List Call) (ev : List Event) (h : Reachable σ)
    (hrun : σ.run cs = .ok (σ1, ev)) : Reachable σ1 := by
  obtain ⟨b, ctx, prog, vars, cs0, ev0, h0⟩ := h
  exact ⟨b, ctx, prog, vars, cs0 ++ cs, ev0 ++ ev, run_append _ _ _ _ _ _ _ h0 hrun⟩

/-- An instance of the theorem above: a 2 x 2 frame from a fresh object, the device writing 3 into
every texel of the first texture and 5 into every texel of the second: the totals are 12 and
20, the averages 12 / 4 and 20 / 4. -/
theorem frame_stats_witness :
    ∃ r s2 ev2 g,
      freshEnabled.logging.begin freshEnabled.ctx freshEnabled.program freshEnabled.vars
        ⟨2, 2⟩ goodEnv = .ok r ∧
      r.self.end_ (r.ctx.gpuWrites [(0, fun _ _ => 3), (1, fun _ _ => 5)]) = .ok (s2, ev2) ∧
      s2.getStats Stats.zero = .ok g ∧ g.ret = true ∧
      g.stats.totalRays = 12 ∧
      g.stats.avgRaysPerPixel = ((12 : Nat) : ℚ) / (((2 : Nat) : ℚ) * ((2 : Nat) : ℚ)) ∧
      g.stats.avgPathLength = ((20 : Nat) : ℚ) / (((2 : Nat) : ℚ) * ((2 : Nat) : ℚ)) := by
  obtain ⟨r, ray, path, s2, ev2, g, hb, hray, hpath, hend, hg, hret, htot, _, _, hex, _⟩ :=
    frame_stats freshEnabled 2 2 goodEnv [(0, fun _ _ => 3), (1, fun _ _ => 5)] Stats.zero
      (reachable_initial _ _ _ _) rfl rfl (by decide) (by decide) ⟨rfl, rfl, rfl⟩
  have hb0 : freshEnabled.logging.begin freshEnabled.ctx freshEnabled.program freshEnabled.vars
      ⟨2, 2⟩ goodEnv = .ok firstBegin := rfl
  rw [hb0] at hb
  cases hb
  have hray0 : firstBegin.self.mpStatsRayCount = some ⟨0, 2, 2⟩ := rfl
  have hpath0 : firstBegin.self.mpStatsPathLength = some ⟨1, 2, 2⟩ := rfl
  rw [hray0] at hray
  rw [hpath0] at hpath
  cases hray
  cases hpath
  have hR : (firstBegin.ctx.gpuWrites [(0, fun _ _ => 3), (1, fun _ _ => 5)]).texelSum
      ⟨0, 2, 2⟩ % 2 ^ 32 = 12 := by decide
  have hP : (firstBegin.ctx.gpuWrites [(0, fun _ _ => 3), (1, fun _ _ => 5)]).texelSum
      ⟨1, 2, 2⟩ % 2 ^ 32 = 20 := by decide
  rw [hR] at htot hex
  rw [hP] at hex
  obtain ⟨hexR, hexP⟩ := hex (by decide)
  exact ⟨_, s2, ev2, g, hb0, hend, hg, hret, htot, hexR (by decide), hexP (by decide)⟩

/-- C1 fails as stated, in two ways. A frame of 65536 x 65536 pixels has at least one pixel,
but its pixel count is 0 in `uint32_t`; `begin` and `end` return and `getStats` stops at the
assertion `numPixels > 0` instead of returning `true`. And on a 1 x 1 frame whose only texel
holds 16777217 the reduction result is `R = 16777217`, `getStats` returns `true` with
`totalRays = 16777217`, but the cast to `float` rounds the total to 16777216, so the average
stored is 16777216 and not `R / (1 * 1)`. -/
theorem frame_stats_overflow :
    (0 < 65536 * 65536 ∧
      ∃ r s2 ev2,
        freshEnabled.logging.begin freshEnabled.ctx freshEnabled.program freshEnabled.vars
          ⟨65536, 65536⟩ goodEnv = .ok r ∧
        r.self.end_ (r.ctx.gpuWrites []) = .ok (s2, ev2) ∧
        s2.getStats Stats.zero = .assertFailed "numPixels > 0") ∧
    (∃ r ray s2 ev2 g,
      freshEnabled.logging.begin freshEnabled.ctx freshEnabled.program freshEnabled.vars
        ⟨1, 1⟩ goodEnv = .ok r ∧
      r.self.mpStatsRayCount = some ray ∧
      (r.ctx.gpuWrites [(0, fun _ _ => 16777217)]).texelSum ray % 2 ^ 32 = 16777217 ∧
      r.self.end_ (r.ctx.gpuWrites [(0, fun _ _ => 16777217)]) = .ok (s2, ev2) ∧
      s2.getStats Stats.zero = .ok g ∧ g.ret = true ∧
      g.stats.totalRays = 16777217 ∧
      g.stats.avgRaysPerPixel = ((16777216 : Nat) : ℚ) / ((1 : Nat) : ℚ) ∧
      g.stats.avgRaysPerPixel ≠ ((16777217 : Nat) : ℚ) / (((1 : Nat) : ℚ) * ((1 : Nat) : ℚ))) := by
  refine ⟨⟨by decide, frame_stats_wrapped freshEnabled 65536 65536 goodEnv [] Stats.zero
    (reachable_initial _ _ _ _) rfl rfl (by decide) ⟨rfl, rfl, rfl⟩⟩, ?_⟩
  have havg : ((16777216 : Nat) : ℚ) / ((1 : Nat) : ℚ) ≠
      ((16777217 : Nat) : ℚ) / (((1 : Nat) : ℚ) * ((1 : Nat) : ℚ)) := by norm_num
  exact ⟨_, _, _, _, _, rfl, rfl, by decide, rfl, rfl, rfl, rfl, rfl, havg⟩

/-! ## C2: the contract of `getStats` -/

theorem copy_total (s : Logging) (hr : s.mRunning = false) (hs : s.readbackSafe) :
    ∃ s1 ev, s.copyStatsToCPU = .ok (s1, ev) := by
  rcases Bool.eq_false_or_eq_true s.mWaitingForData with hw | hw
  swap
  · exact ⟨_, _, copy_idle s hr hw⟩
  obtain ⟨hf, hrest⟩ := hs hw
  obtain ⟨f, hf⟩ := Option.isSome_iff_exists.mp hf
  rcases Bool.eq_false_or_eq_true s.mStatsEnabled with he | he
  swap
  · exact ⟨_, _, copy_disabled s f hr hw hf he⟩
  obtain ⟨hb, hn⟩ := hrest he
  obtain ⟨buf, hb⟩ := Option.isSome_iff_exists.mp hb
  exact ⟨_, _, copy_enabled s f buf hr hw hf he hb hn⟩

theorem copy_no_warning (s s1 : Logging) (ev : List Event)
    (h : s.copyStatsToCPU = .ok (s1, ev)) : ev.countP Event.isWarning = 0 := by
  obtain ⟨_, ⟨_, _, rfl⟩ | ⟨_, _, _, _, rfl⟩ | ⟨_, _, _, _, _, _, _, rfl⟩⟩ := copy_ok s s1 ev h <;>
    rfl

theorem getStats_returns (s : Logging) (out : Stats) (hr : s.mRunning = false)
    (hs : s.readbackSafe) :
    ∃ s1 ev g, s.copyStatsToCPU = .ok (s1, ev) ∧ s.getStats out = .ok g ∧ g.self = s1 ∧
      (g.ret = false ↔ s1.mStatsValid = false) ∧
      (g.ret = false → g.stats = out ∧ g.events.countP Event.isWarning = 1) ∧
      (g.ret = true → g.stats = s1.mStats ∧ g.events.countP Event.isWarning = 0) := by
  obtain ⟨s1, ev, hc⟩ := copy_total s hr hs
  have hw := copy_no_warning s s1 ev hc
  refine ⟨s1, ev, _, hc, getStats_of_copy s s1 out ev hc, ?_⟩
  cases hv : s1.mStatsValid
  · simp [hw, statsWarning, Event.isWarning]
  · simp [hw]

theorem getStats_returns_iff (s : Logging) (out : Stats) (hr : s.mRunning = false) :
    (∃ g, s.getStats out = .ok g) ↔ s.readbackSafe := by
  constructor
  · rintro ⟨g, hg⟩
    obtain ⟨ev, hc, _⟩ := getStats_ok s out g hg
    intro hw
    obtain ⟨_, ⟨hw2, _⟩ | ⟨_, he, ⟨f, hf⟩, _⟩ | ⟨_, _, ⟨f, hf⟩, hn, buf, hb, _⟩⟩ :=
      copy_ok _ _ _ hc
    · rw [hw] at hw2
      cases hw2
    · refine ⟨by simp [hf], fun he2 => ?_⟩
      rw [he] at he2
      cases he2
    · exact ⟨by simp [hf], fun _ => ⟨by simp [hb], hn⟩⟩
  · intro hs
    obtain ⟨_, _, g, _, hg, _⟩ := getStats_returns s out hr hs
    exact ⟨g, hg⟩

theorem getStats_fresh (b : Bool) (out : Stats) :
    (Logging.create b).getStats out =
      .ok ⟨false, out, Logging.create b, [statsWarning]⟩ := by
  rw [getStats_of_copy _ _ out _ (copy_idle (Logging.create b) rfl rfl)]
  rfl

theorem getStats_after_disabled_frame (s : Logging) (ctx : RenderContext) (prog : RtProgram)
    (vars : RtProgramVars) (d : UVec2) (env : BeginEnv) (out : Stats)
    (hr : s.mRunning = false) (he : s.mStatsEnabled = false) :
    ∃ r s2 g, s.begin ctx prog vars d env = .ok r ∧ r.self.end_ r.ctx = .ok (s2, []) ∧
      s2.getStats out = .ok g ∧ g.ret = false ∧ g.stats = out ∧ g.events = [statsWarning] ∧
      s2.getRayCountBuffer = .ok none := by
  have hend := end_disabled (s.frameReset d) ctx rfl he
  have hcopy := copy_idle { s.frameReset d with mRunning := false } rfl rfl
  refine ⟨_, _, _, begin_disabled s ctx prog vars d env hr he, hend,
    getStats_of_copy _ _ out _ hcopy, rfl, rfl, rfl, rfl⟩

/-- C2: in a non-running state `getStats` returns exactly when the pending readback can be
carried out; it then returns `false` exactly when `mStatsValid` is false after `copyStatsToCPU`; then
the caller's value is unchanged and exactly one warning is logged; when it returns `true` the
caller's value is the stored `mStats` and no warning is logged. On a freshly created object,
and after a frame run with statistics disabled, it returns `false`. -/
theorem getStats_contract :
    (∀ (s : Logging) (out : Stats), s.mRunning = false →
      ((∃ g, s.getStats out = .ok g) ↔ s.readbackSafe)) ∧
    (∀ (s : Logging) (out : Stats), s.mRunning = false → s.readbackSafe →
      ∃ s1 ev g, s.copyStatsToCPU = .ok (s1, ev) ∧ s.getStats out = .ok g ∧ g.self = s1 ∧
        (g.ret = false ↔ s1.mStatsValid = false) ∧
        (g.ret = false → g.stats = out ∧ g.events.countP Event.isWarning = 1) ∧
        (g.ret = true → g.stats = s1.mStats ∧ g.events.countP Event.isWarning = 0)) ∧
    (∀ (b : Bool) (out : Stats), ∃ g, (Logging.create b).getStats out = .ok g ∧ g.ret = false) ∧
    (∀ (s : Logging) (ctx : RenderContext) (prog : RtProgram) (vars : RtProgramVars)
        (d : UVec2) (env : BeginEnv) (out : Stats),
      s.mRunning = false → s.mStatsEnabled = false →
      ∃ r s2 g, s.begin ctx prog vars d env = .ok r ∧ r.self.end_ r.ctx = .ok (s2, []) ∧
        s2.getStats out = .ok g ∧ g.ret = false) := by
  refine ⟨getStats_returns_iff, getStats_returns,
    fun b out => ⟨_, getStats_fresh b out, rfl⟩, ?_⟩
  intro s ctx prog vars d env out hr he
  obtain ⟨r, s2, g, h1, h2, h3, h4, _⟩ :=
    getStats_after_disabled_frame s ctx prog vars d env out hr he
  exact ⟨r, s2, g, h1, h2, h3, h4⟩

/-- An instance of the theorem above: on a freshly created object `getStats` returns `false`,
leaves the caller's value alone and logs one warning. -/
theorem getStats_contract_witness :
    ∃ s1 ev g, (Logging.create true).copyStatsToCPU = .ok (s1, ev) ∧
      (Logging.create true).getStats ⟨7, 1, 2⟩ = .ok g ∧ g.self = s1 ∧
      (g.ret = false ↔ s1.mStatsValid = false) ∧
      (g.ret = false → g.stats = ⟨7, 1, 2⟩ ∧ g.events.countP Event.isWarning = 1) ∧
      (g.ret = true → g.stats = s1.mStats ∧ g.events.countP Event.isWarning = 0) :=
  getStats_contract.2.1 (Logging.create true) ⟨7, 1, 2⟩ rfl (fun h => by cases h)

/-! ## C3: the stats of the last completed frame -/

theorem ui_holds (s : Logging) (stats : Stats) (c : UiCall) (h : s.holds stats) :
    ∃ s1, s1.holds stats ∧
      s.ui c = .ok (s1, if c.isGetStats then [(true, stats)] else []) := by
  obtain ⟨h1, h2, h3, h4⟩ := h
  cases c with
  | renderUI b =>
    have hc := copy_idle { s with mStatsEnabled := b } h1 h2
    refine ⟨{ s with mStatsEnabled := b }, ⟨h1, h2, h3, h4⟩, ?_⟩
    simp [Logging.ui, Logging.renderUI, hc, Outcome.bind, UiCall.isGetStats]
  | getStats out =>
    have hc := copy_idle s h1 h2
    refine ⟨s, ⟨h1, h2, h3, h4⟩, ?_⟩
    simp [Logging.ui, getStats_of_copy s s out [] hc, h3, h4, Outcome.bind, UiCall.isGetStats]

theorem uiRun_cons_eq (s s1 s2 : Logging) (c : UiCall) (cs : List UiCall)
    (res1 res2 : List (Bool × Stats)) (h1 : s.ui c = .ok (s1, res1))
    (h2 : s1.uiRun cs = .ok (s2, res2)) : s.uiRun (c :: cs) = .ok (s2, res1 ++ res2) := by
  show ((s.ui c).bind fun p =>
    (Logging.uiRun p.1 cs).bind fun q => .ok (q.1, p.2 ++ q.2)) = _
  rw [h1]
  show ((Logging.uiRun s1 cs).bind fun q => .ok (q.1, res1 ++ q.2)) = _
  rw [h2]
  rfl

theorem uiRun_holds (cs : List UiCall) (s : Logging) (stats : Stats) (h : s.holds stats) :
    ∃ s1 results, s1.holds stats ∧ s.uiRun cs = .ok (s1, results) ∧
      results.length = cs.countP UiCall.isGetStats ∧
      ∀ res ∈ results, res = (true, stats) := by
  induction cs generalizing s with
  | nil => exact ⟨s, [], h, rfl, rfl, by simp⟩
  | cons c cs ih =>
    obtain ⟨s1, hs1, hc⟩ := ui_holds s stats c h
    obtain ⟨s2, results, hs2, hrun, hlen, hall⟩ := ih s1 hs1
    refine ⟨s2, _, hs2, uiRun_cons_eq _ _ _ _ _ _ _ hc hrun, ?_, ?_⟩
    · cases c <;> simp [UiCall.isGetStats, hlen, List.countP_cons]
    · intro res hres
      rcases List.mem_append.mp hres with hres | hres
      · cases c <;> simp [UiCall.isGetStats] at hres
        exact hres
      · exact hall res hres

/-- The first call after `end` performs the readback; it stores the stats when it leaves the
checkbox set. -/
theorem ui_first (s : Logging) (f : GpuFence) (buf : Buffer) (c : UiCall)
    (hr : s.mRunning = false) (hw : s.mWaitingForData = true) (he : s.mStatsEnabled = true)
    (hf : s.mpFence = some f) (hb : s.mpReductionResult = some buf) (hn : s.numPixels ≠ 0)
    (hc : ∀ b, c = .renderUI b → b = true) :
    ∃ s1, s1.holds (s.readStats buf) ∧
      s.ui c = .ok (s1, if c.isGetStats then [(true, s.readStats buf)] else []) := by
  cases c with
  | renderUI b =>
    have hb1 : b = true := hc b rfl
    subst hb1
    have hcopy := copy_enabled { s with mStatsEnabled := true } f buf hr hw hf rfl hb hn
    refine ⟨{ s with mStatsEnabled := true, mWaitingForData := false,
                     mStats := s.readStats buf, mStatsValid := true },
      ⟨hr, rfl, rfl, rfl⟩, ?_⟩
    simp only [Logging.ui, Logging.renderUI, hcopy, Outcome.bind, UiCall.isGetStats]
    rfl
  | getStats out =>
    have hcopy := copy_enabled s f buf hr hw hf he hb hn
    refine ⟨{ s with mWaitingForData := false, mStats := s.readStats buf,
                     mStatsValid := true },
      ⟨hr, rfl, rfl, rfl⟩, ?_⟩
    simp only [Logging.ui, getStats_of_copy s _ out _ hcopy, Outcome.bind, UiCall.isGetStats]
    rfl

/-- C3 (as amended): after a frame `begin (x, y); end` with statistics enabled and a pixel count
that is not zero in `uint32_t`, for every sequence of `renderUI` and `getStats` calls whose
first call leaves the checkbox set (it is a `getStats`, or a `renderUI` with the checkbox
still set), whatever the later `renderUI` calls set the checkbox to, every `getStats` of the
sequence returns `true` with the stats of that frame, the counters the readback stores for
the two reduction results and the pixel count. -/
theorem stats_of_last_frame (σ : System) (x y : Nat) (env : BeginEnv)
    (writes : List (Nat × (Nat → Nat → Nat))) (c : UiCall) (cs : List UiCall)
    (hreach : Reachable σ) (hr : σ.logging.mRunning = false)
    (he : σ.logging.mStatsEnabled = true) (hn : (x * y) % 2 ^ 32 ≠ 0) (henv : env.succeeds)
    (hc : ∀ b, c = .renderUI b → b = true) :
    ∃ r ray path s2 ev2 s3 results,
      σ.logging.begin σ.ctx σ.program σ.vars ⟨x, y⟩ env = .ok r ∧
      r.self.mpStatsRayCount = some ray ∧ r.self.mpStatsPathLength = some path ∧
      r.self.end_ (r.ctx.gpuWrites writes) = .ok (s2, ev2) ∧
      s2.uiRun (c :: cs) = .ok (s3, results) ∧
      results.length = (c :: cs).countP UiCall.isGetStats ∧
      ∀ res ∈ results, res =
        (true,
         storedStats ((r.ctx.gpuWrites writes).texelSum ray % 2 ^ 32)
           ((r.ctx.gpuWrites writes).texelSum path % 2 ^ 32) ((x * y) % 2 ^ 32)) := by
  obtain ⟨r, ray, path, s2, ev2, f, buf, hb, hray, hpath, hend, h1, h2, h3, _, h5, h6, h7, h8, h9⟩ :=
    frame_begin_end σ x y env writes hreach hr he henv
  have hnp : s2.numPixels = (x * y) % 2 ^ 32 := by
    simp only [Logging.numPixels, h5]
    rfl
  obtain ⟨s3, hs3, hfirst⟩ := ui_first s2 f buf c h1 h2 h3 h6 h7 (by rw [hnp]; exact hn) hc
  obtain ⟨s4, results, _, hrun, hlen, hall⟩ := uiRun_holds cs s3 _ hs3
  have hstats : s2.readStats buf =
      storedStats ((r.ctx.gpuWrites writes).texelSum ray % 2 ^ 32)
        ((r.ctx.gpuWrites writes).texelSum path % 2 ^ 32) ((x * y) % 2 ^ 32) := by
    simp only [Logging.readStats, hnp, h8, h9]
    rfl
  rw [hstats] at hfirst hall
  refine ⟨r, ray, path, s2, ev2, s4, _, hb, hray, hpath, hend,
    uiRun_cons_eq _ _ _ _ _ _ _ hfirst hrun, ?_, ?_⟩
  · cases c <;> simp [UiCall.isGetStats, hlen, List.countP_cons]
  · intro res hres
    rcases List.mem_append.mp hres with hres | hres
    · cases c <;> simp [UiCall.isGetStats] at hres
      exact hres
    · exact hall res hres

/-- An instance of the theorem above: a 2 x 2 frame, then `getStats`, `renderUI` clearing
the checkbox, `getStats`. -/
theorem stats_of_last_frame_witness :
    ∃ r ray path s2 ev2 s3 results,
      freshEnabled.logging.begin freshEnabled.ctx freshEnabled.program freshEnabled.vars
        ⟨2, 2⟩ goodEnv = .ok r ∧
      r.self.mpStatsRayCount = some ray ∧ r.self.mpStatsPathLength = some path ∧
      r.self.end_ (r.ctx.gpuWrites [(0, fun _ _ => 3)]) = .ok (s2, ev2) ∧
      s2.uiRun [.getStats Stats.zero, .renderUI false, .getStats Stats.zero] =
        .ok (s3, results) ∧
      results.length =
        [UiCall.getStats Stats.zero, .renderUI false, .getStats Stats.zero].countP
          UiCall.isGetStats ∧
      ∀ res ∈ results, res =
        (true,
         storedStats ((r.ctx.gpuWrites [(0, fun _ _ => 3)]).texelSum ray % 2 ^ 32)
           ((r.ctx.gpuWrites [(0, fun _ _ => 3)]).texelSum path % 2 ^ 32)
           ((2 * 2) % 2 ^ 32)) :=
  stats_of_last_frame freshEnabled 2 2 goodEnv [(0, fun _ _ => 3)] (.getStats Stats.zero)
    [.renderUI false, .getStats Stats.zero] (reachable_initial _ _ _ _) rfl rfl (by decide)
    ⟨rfl, rfl, rfl⟩ (fun b h => by cases h)

/-- C3 fails as stated: after a frame completed with statistics enabled, a `renderUI` that
clears the checkbox performs the readback without storing the stats, and the following
`getStats` returns `false` and leaves the caller's value alone. -/
theorem stats_lost_when_unchecked :
    ∃ r s2 ev2 s3,
      freshEnabled.logging.mStatsEnabled = true ∧
      freshEnabled.logging.begin freshEnabled.ctx freshEnabled.program freshEnabled.vars
        ⟨2, 2⟩ goodEnv = .ok r ∧
      r.self.mStatsEnabled = true ∧
      r.self.end_ r.ctx = .ok (s2, ev2) ∧
      s2.uiRun [.renderUI false, .getStats Stats.zero] = .ok (s3, [(false, Stats.zero)]) :=
  ⟨_, _, _, _, rfl, rfl, rfl, rfl, rfl⟩

/-! ## C4: the postcondition of `begin` -/

theorem needsNewTextures_iff (s : Logging) (d : UVec2) :
    s.needsNewTextures d = true ↔
      (s.mpStatsRayCount = none ∨
        ∃ t, s.mpStatsRayCount = some t ∧ (t.width ≠ d.x ∨ t.height ≠ d.y)) := by
  unfold Logging.needsNewTextures
  cases s.mpStatsRayCount with
  | none => simp
  | some t => simp

theorem begin_completes_iff (s : Logging) (ctx : RenderContext) (prog : RtProgram)
    (vars : RtProgramVars) (d : UVec2) (env : BeginEnv) (h : s.Inv) (hr : s.mRunning = false) :
    (∃ r, s.begin ctx prog vars d env = .ok r) ↔
      (s.mStatsEnabled = false ∨
        ((s.mpParallelReduction.isSome = true ∨ env.reduction.isSome = true) ∧
          (s.needsNewTextures d = true →
            env.rayCount.isSome = true ∧ env.pathLength.isSome = true))) := by
  constructor
  · rintro ⟨r, hb⟩
    rcases Bool.eq_false_or_eq_true s.mStatsEnabled with he | he
    swap
    · exact Or.inl he
    right
    obtain ⟨red, buf, ray, path, ctx1, evR, evT, hR, hT, _⟩ :=
      begin_enabled_ok s ctx prog vars d env r hr he hb
    constructor
    · rcases hR with ⟨h1, _⟩ | ⟨_, h2, _⟩
      · exact Or.inl (by simp [h1])
      · exact Or.inr (by simp [h2])
    · intro hn
      rcases hT with ⟨h1, _⟩ | ⟨_, c1, c2, h1, h2, _⟩
      · rw [h1] at hn
        cases hn
      · simp [h1, h2]
  · rintro (he | ⟨h1, h2⟩)
    · exact ⟨_, begin_disabled s ctx prog vars d env hr he⟩
    · rcases Bool.eq_false_or_eq_true s.mStatsEnabled with he | he
      · exact begin_enabled_succeeds s ctx prog vars d env h hr he h1 h2
      · exact ⟨_, begin_disabled s ctx prog vars d env hr he⟩

/-- C4: `begin` from a reachable non-running state. It returns unless statistics are enabled
and a creation fails. When it returns, the define `_LOGGING_ENABLE_STATS` is "1" with
statistics enabled and "0" otherwise. With statistics enabled both textures exist with the
size of the frame, every texel of both is zero, they are bound to `gStatsRayCount` and
`gStatsPathLength`, and textures are created exactly when the ray count texture was missing
or had another size (otherwise the old pointers are kept). With statistics disabled no
texture is created, cleared or bound. -/
theorem begin_postcondition (σ : System) (d : UVec2) (env : BeginEnv)
    (hreach : Reachable σ) (hr : σ.logging.mRunning = false) :
    ((∃ r, σ.logging.begin σ.ctx σ.program σ.vars d env = .ok r) ↔
      (σ.logging.mStatsEnabled = false ∨
        ((σ.logging.mpParallelReduction.isSome = true ∨ env.reduction.isSome = true) ∧
          (σ.logging.needsNewTextures d = true →
            env.rayCount.isSome = true ∧ env.pathLength.isSome = true)))) ∧
    ∀ r, σ.logging.begin σ.ctx σ.program σ.vars d env = .ok r →
      r.program.defines "_LOGGING_ENABLE_STATS" =
        some (if σ.logging.mStatsEnabled then "1" else "0") ∧
      (σ.logging.mStatsEnabled = true →
        ∃ ray path,
          r.self.mpStatsRayCount = some ray ∧ r.self.mpStatsPathLength = some path ∧
          ray.width = d.x ∧ ray.height = d.y ∧ path.width = d.x ∧ path.height = d.y ∧
          (∀ i j, r.ctx.texels ray.id i j = 0) ∧ (∀ i j, r.ctx.texels path.id i j = 0) ∧
          r.vars.globals "gStatsRayCount" = some ray ∧
          r.vars.globals "gStatsPathLength" = some path ∧
          (r.events.any Event.isCreateTexture = true ↔
            (σ.logging.mpStatsRayCount = none ∨
              ∃ t, σ.logging.mpStatsRayCount = some t ∧ (t.width ≠ d.x ∨ t.height ≠ d.y))) ∧
          (r.events.any Event.isCreateTexture = false →
            r.self.mpStatsRayCount = σ.logging.mpStatsRayCount ∧
            r.self.mpStatsPathLength = σ.logging.mpStatsPathLength)) ∧
      (σ.logging.mStatsEnabled = false →
        r.events.any Event.touchesTexture = false ∧ r.ctx = σ.ctx ∧ r.vars = σ.vars ∧
        r.self.mpStatsRayCount = σ.logging.mpStatsRayCount ∧
        r.self.mpStatsPathLength = σ.logging.mpStatsPathLength) := by
  have hinv := reachable_inv σ hreach
  refine ⟨begin_completes_iff _ _ _ _ d env hinv hr, ?_⟩
  intro r hb
  rcases Bool.eq_false_or_eq_true σ.logging.mStatsEnabled with he | he
  · obtain ⟨red, buf, ray, path, ctx1, evR, evT, hR, hT, rfl⟩ :=
      begin_enabled_ok _ _ _ _ _ _ _ hr he hb
    refine ⟨by simp [he, RtProgram.addDefine], fun _ => ?_, fun h => by simp [he] at h⟩
    have hevR : evR.any Event.isCreateTexture = false := by
      rcases hR with ⟨_, _, rfl⟩ | ⟨_, _, _, rfl⟩ <;> rfl
    refine ⟨ray, path, rfl, rfl, ?_⟩
    rcases hT with ⟨hn, hray, hpath, rfl, rfl⟩ | ⟨hn, c1, c2, _, _, rfl, rfl, rfl, rfl⟩
    · obtain ⟨t, ht, hw, hh⟩ := needsNewTextures_false _ d hn
      rw [hray] at ht
      cases ht
      obtain ⟨p, hp, hpw, hph, _⟩ := hinv.textures_paired ray hray
      rw [hpath] at hp
      cases hp
      have hnn := (needsNewTextures_iff σ.logging d).not.mp (by simp [hn])
      refine ⟨hw, hh, hpw.trans hw, hph.trans hh, ?_, ?_, ?_, ?_, ?_, ?_⟩
      · intro i j
        simp [RenderContext.clearUAV]
      · intro i j
        simp [RenderContext.clearUAV]
      · simp [RtProgramVars.setTexture]
      · simp [RtProgramVars.setTexture]
      · simp [hevR, Event.isCreateTexture, hnn]
      · intro _
        exact ⟨hray.symm, hpath.symm⟩
    · have hnn := (needsNewTextures_iff σ.logging d).mp hn
      refine ⟨rfl, rfl, rfl, rfl, ?_, ?_, ?_, ?_, ?_, ?_⟩
      · intro i j
        simp [RenderContext.clearUAV]
      · intro i j
        simp [RenderContext.clearUAV]
      · simp [RtProgramVars.setTexture]
      · simp [RtProgramVars.setTexture]
      · simp [Event.isCreateTexture, hnn]
      · intro h
        simp [Event.isCreateTexture] at h
  · rw [begin_disabled _ _ _ _ d env hr he] at hb
    cases hb
    refine ⟨by simp [he, RtProgram.addDefine], fun h => by simp [he] at h, fun _ => ?_⟩
    exact ⟨rfl, rfl, rfl, rfl, rfl⟩

/-- An instance of the theorem above: the first `begin` of a fresh object with the checkbox
set, for a 2 x 2 frame. -/
theorem begin_postcondition_witness :
    ∃ r ray path,
      freshEnabled.logging.begin freshEnabled.ctx freshEnabled.program freshEnabled.vars
        ⟨2, 2⟩ goodEnv = .ok r ∧
      r.program.defines "_LOGGING_ENABLE_STATS" = some "1" ∧
      r.self.mpStatsRayCount = some ray ∧ r.self.mpStatsPathLength = some path ∧
      ray.width = 2 ∧ ray.height = 2 ∧ path.width = 2 ∧ path.height = 2 ∧
      (∀ i j, r.ctx.texels ray.id i j = 0) ∧ (∀ i j, r.ctx.texels path.id i j = 0) ∧
      r.vars.globals "gStatsRayCount" = some ray ∧
      r.vars.globals "gStatsPathLength" = some path := by
  obtain ⟨hc, hp⟩ :=
    begin_postcondition freshEnabled ⟨2, 2⟩ goodEnv (reachable_initial _ _ _ _) rfl
  obtain ⟨r, hr⟩ := hc.mpr (Or.inr ⟨Or.inr rfl, fun _ => ⟨rfl, rfl⟩⟩)
  obtain ⟨h1, h2, _⟩ := hp r hr
  obtain ⟨ray, path, g1, g2, g3, g4, g5, g6, g7, g8, g9, g10, _⟩ := h2 rfl
  exact ⟨r, ray, path, hr, h1, g1, g2, g3, g4, g5, g6, g7, g8, g9, g10⟩

/-! ## C5: the effect of `end` -/

/-- C5: `end` in a reachable running state with statistics enabled returns; the readback
buffer (32 bytes) then holds the sum of the ray count texture in the `uint4` at byte offset 0
and the sum of the path length texture in the `uint4` at byte offset 16, both inside the buffer
and without overlap; the calls made are the two reductions, then the flush, then the fence
signal (preceded by the creation of the fence when there was none); `mStatsBuffersValid` and
`mWaitingForData` are set and nothing else changes. With statistics disabled `end` only
clears `mRunning` and makes no call. -/
theorem end_effect :
    (∀ (σ : System), Reachable σ → σ.logging.mRunning = true →
      σ.logging.mStatsEnabled = true →
      ∃ red ray path buf buf1 s1,
        σ.logging.mpParallelReduction = some red ∧ σ.logging.mpStatsRayCount = some ray ∧
        σ.logging.mpStatsPathLength = some path ∧ σ.logging.mpReductionResult = some buf ∧
        buf.size = 32 ∧ buf1.size = 32 ∧
        σ.logging.end_ σ.ctx =
          .ok (s1,
            (if σ.logging.mpFence.isSome then [] else [Event.createFence]) ++
              [Event.reduceSum ray.id 0, Event.reduceSum path.id 16, Event.flush,
               Event.gpuSignal]) ∧
        s1 = { σ.logging with
                mRunning := false
                mpFence := some (σ.logging.mpFence.getD GpuFence.create).gpuSignal
                mpReductionResult := some buf1
                mStatsBuffersValid := true
                mWaitingForData := true } ∧
        buf1.readUInt4 0 = ⟨σ.ctx.texelSum ray % 2 ^ 32, 0, 0, 0⟩ ∧
        buf1.readUInt4 1 = ⟨σ.ctx.texelSum path % 2 ^ 32, 0, 0, 0⟩ ∧
        (∀ i, 8 ≤ i → buf1.words i = buf.words i) ∧
        0 + 16 ≤ 16 ∧ 16 + 16 ≤ buf1.size) ∧
    (∀ (s : Logging) (ctx : RenderContext), s.mRunning = true → s.mStatsEnabled = false →
      s.end_ ctx = .ok ({ s with mRunning := false }, [])) := by
  refine ⟨?_, end_disabled⟩
  intro σ hreach hr he
  have hinv := reachable_inv σ hreach
  obtain ⟨hred, ray, hray, _⟩ := hinv.running_enabled hr he
  obtain ⟨red, hred⟩ := Option.isSome_iff_exists.mp hred
  obtain ⟨path, hpath, _⟩ := hinv.textures_paired ray hray
  obtain ⟨buf, hbuf, hsize⟩ := hinv.buffer_of_reduction (by simp [hred])
  refine ⟨red, ray, path, buf, red.execute σ.ctx path (red.execute σ.ctx ray buf 0) 16, _,
    hred, hray, hpath, hbuf, hsize, hsize,
    end_enabled σ.logging σ.ctx red ray path buf hr he hred hray hpath hbuf, rfl, ?_, ?_, ?_,
    by omega, by
      show 16 + 16 ≤ buf.size
      omega⟩
  · simp [ComputeParallelReduction.execute, Buffer.writeUInt4, Buffer.readUInt4, uint32Mod]
  · simp [ComputeParallelReduction.execute, Buffer.writeUInt4, Buffer.readUInt4, uint32Mod]
  · intro i hi
    have h1 : i ≠ 4 := by omega
    have h2 : i ≠ 5 := by omega
    have h3 : i ≠ 6 := by omega
    have h4 : i ≠ 7 := by omega
    have h5 : i ≠ 0 := by omega
    have h6 : i ≠ 1 := by omega
    have h7 : i ≠ 2 := by omega
    have h8 : i ≠ 3 := by omega
    simp [ComputeParallelReduction.execute, Buffer.writeUInt4, h1, h2, h3, h4, h5, h6, h7, h8]

theorem afterBegin_reachable : Reachable afterBegin :=
  ⟨true, emptyContext, emptyProgram, emptyVars, [.begin ⟨2, 2⟩ goodEnv], _, rfl⟩

theorem afterEnd_reachable : Reachable afterEnd :=
  ⟨true, emptyContext, emptyProgram, emptyVars, [.begin ⟨2, 2⟩ goodEnv, .end_], _, rfl⟩

theorem afterGetStats_reachable : Reachable afterGetStats :=
  ⟨true, emptyContext, emptyProgram, emptyVars,
    [.begin ⟨2, 2⟩ goodEnv, .end_, .getStats Stats.zero], _, rfl⟩

/-- An instance of the theorem above: the `end` that follows the first `begin` of a fresh object
with the checkbox set. -/
theorem end_effect_witness :
    ∃ red ray path buf buf1 s1,
      afterBegin.logging.mpParallelReduction = some red ∧
      afterBegin.logging.mpStatsRayCount = some ray ∧
      afterBegin.logging.mpStatsPathLength = some path ∧
      afterBegin.logging.mpReductionResult = some buf ∧
      buf.size = 32 ∧ buf1.size = 32 ∧
      afterBegin.logging.end_ afterBegin.ctx =
        .ok (s1,
          (if afterBegin.logging.mpFence.isSome then [] else [Event.createFence]) ++
            [Event.reduceSum ray.id 0, Event.reduceSum path.id 16, Event.flush,
             Event.gpuSignal]) ∧
      s1 = { afterBegin.logging with
              mRunning := false
              mpFence := some (afterBegin.logging.mpFence.getD GpuFence.create).gpuSignal
              mpReductionResult := some buf1
              mStatsBuffersValid := true
              mWaitingForData := true } ∧
      buf1.readUInt4 0 = ⟨afterBegin.ctx.texelSum ray % 2 ^ 32, 0, 0, 0⟩ ∧
      buf1.readUInt4 1 = ⟨afterBegin.ctx.texelSum path % 2 ^ 32, 0, 0, 0⟩ ∧
      (∀ i, 8 ≤ i → buf1.words i = buf.words i) ∧
      0 + 16 ≤ 16 ∧ 16 + 16 ≤ buf1.size :=
  end_effect.1 afterBegin afterBegin_reachable rfl rfl

/-! ## C6: the one exception -/

theorem bind_raised {α β : Type} (o : Outcome α) (f : α → Outcome β)
    (ho : o.raised = false) (hf : ∀ a, (f a).raised = false) : (o.bind f).raised = false := by
  cases o with
  | ok a => exact hf a
  | assertFailed c => rfl
  | threw w => cases ho
  | nullDeref p => rfl

theorem clearAndBind_not_raised (s : Logging) (ctx : RenderContext) (prog : RtProgram)
    (vars : RtProgramVars) (ev : List Event) :
    (s.clearAndBind ctx prog vars ev).raised = false := by
  unfold Logging.clearAndBind
  split <;> rfl

theorem begin_raised_iff (s : Logging) (ctx : RenderContext) (prog : RtProgram)
    (vars : RtProgramVars) (d : UVec2) (env : BeginEnv) (hr : s.mRunning = false) :
    (s.begin ctx prog vars d env).raised = true ↔
      (s.mStatsEnabled = true ∧ s.mpParallelReduction = none ∧ env.reduction = none) := by
  rcases Bool.eq_false_or_eq_true s.mStatsEnabled with he | he
  swap
  · rw [begin_disabled s ctx prog vars d env hr he]
    simp [Outcome.raised, he]
  rw [begin_enabled s ctx prog vars d env hr he]
  rcases Option.eq_none_or_eq_some s.mpParallelReduction with hn | ⟨red, hs⟩
  · rcases Option.eq_none_or_eq_some env.reduction with hen | ⟨red, hes⟩
    · have hcr : (s.frameReset d).createReduction env =
          .threw "Failed to create ComputeParallelReduction object" := by
        simp [Logging.createReduction, Logging.frameReset, hn, hen]
      rw [hcr]
      simp [Outcome.bind, Outcome.raised, he, hn, hen]
    · have hcr : (s.frameReset d).createReduction env =
          .ok ({ s.frameReset d with
                  mpParallelReduction := some red
                  mpReductionResult := some (Buffer.create 32 env.bufferContents) },
               [Event.createReduction, Event.createBuffer 32]) := by
        simp [Logging.createReduction, Logging.frameReset, hn, hes]
      rw [hcr]
      have := clearAndBind_not_raised
      simp [Outcome.bind, hes, this]
  · have hcr : (s.frameReset d).createReduction env = .ok (s.frameReset d, []) := by
      simp [Logging.createReduction, Logging.frameReset, hs]
    rw [hcr]
    have := clearAndBind_not_raised
    simp [Outcome.bind, hs, this]

theorem end_not_raised (s : Logging) (ctx : RenderContext) : (s.end_ ctx).raised = false := by
  unfold Logging.end_
  split
  · rfl
  · dsimp only
    split
    · split <;> rfl
    · rfl

theorem copy_not_raised (s : Logging) : s.copyStatsToCPU.raised = false := by
  unfold Logging.copyStatsToCPU
  split
  · rfl
  · split
    · split
      · rfl
      · dsimp only
        split
        · split
          · rfl
          · split <;> rfl
        · rfl
    · rfl

theorem renderUI_not_raised (s : Logging) (b : Bool) : (s.renderUI b).raised = false :=
  bind_raised _ _ (copy_not_raised _) (fun _ => rfl)

theorem getStats_not_raised (s : Logging) (out : Stats) : (s.getStats out).raised = false := by
  refine bind_raised _ _ (copy_not_raised _) (fun a => ?_)
  dsimp only
  split <;> rfl

theorem getRayCountBuffer_not_raised (s : Logging) : s.getRayCountBuffer.raised = false := by
  unfold Logging.getRayCountBuffer
  split <;> rfl

/-- C6: called in a non-running state, `begin` raises the exception if and only if statistics
are enabled, there is no parallel reduction helper yet and creating it fails. Nothing else
raises: not `begin` with statistics disabled or with a helper, and in no state `end`,
`renderUI`, `getStats`, `getRayCountBuffer` or `copyStatsToCPU`. -/
theorem only_exception :
    (∀ (s : Logging) (ctx : RenderContext) (prog : RtProgram) (vars : RtProgramVars)
        (d : UVec2) (env : BeginEnv), s.mRunning = false →
      ((s.begin ctx prog vars d env).raised = true ↔
        (s.mStatsEnabled = true ∧ s.mpParallelReduction = none ∧ env.reduction = none))) ∧
    (∀ (s : Logging) (ctx : RenderContext) (prog : RtProgram) (vars : RtProgramVars)
        (d : UVec2) (env : BeginEnv), s.mRunning = false →
      s.mStatsEnabled = true → s.mpParallelReduction = none → env.reduction = none →
      s.begin ctx prog vars d env =
        .threw "Failed to create ComputeParallelReduction object") ∧
    (∀ (s : Logging) (ctx : RenderContext), (s.end_ ctx).raised = false) ∧
    (∀ (s : Logging) (checked : Bool), (s.renderUI checked).raised = false) ∧
    (∀ (s : Logging) (out : Stats), (s.getStats out).raised = false) ∧
    (∀ (s : Logging), s.getRayCountBuffer.raised = false) ∧
    (∀ (s : Logging), s.copyStatsToCPU.raised = false) := by
  refine ⟨begin_raised_iff, ?_, end_not_raised, renderUI_not_raised, getStats_not_raised,
    getRayCountBuffer_not_raised, copy_not_raised⟩
  intro s ctx prog vars d env hr he hn hen
  rw [begin_enabled s ctx prog vars d env hr he]
  simp [Logging.createReduction, Logging.frameReset, hn, hen, Outcome.bind]

/-- An instance of the theorem above: the first `begin` of a fresh object with the checkbox set
raises when the host engine fails to create the helper, and does not raise when it succeeds. -/
theorem only_exception_witness :
    (freshEnabled.logging.begin emptyContext emptyProgram emptyVars ⟨2, 2⟩
        ⟨none, fun _ => 0, none, none⟩ =
      .threw "Failed to create ComputeParallelReduction object") ∧
    ((freshEnabled.logging.begin emptyContext emptyProgram emptyVars ⟨2, 2⟩ goodEnv).raised
        = true ↔
      (freshEnabled.logging.mStatsEnabled = true ∧
        freshEnabled.logging.mpParallelReduction = none ∧ goodEnv.reduction = none)) :=
  ⟨only_exception.2.1 freshEnabled.logging emptyContext emptyProgram emptyVars ⟨2, 2⟩
      ⟨none, fun _ => 0, none, none⟩ rfl rfl rfl rfl,
   only_exception.1 freshEnabled.logging emptyContext emptyProgram emptyVars ⟨2, 2⟩ goodEnv rfl⟩

/-! ## C7: the deferred readback -/

theorem begin_events_counts (s : Logging) (ctx : RenderContext) (prog : RtProgram)
    (vars : RtProgramVars) (d : UVec2) (env : BeginEnv) (r : BeginResult)
    (hb : s.begin ctx prog vars d env = .ok r) :
    r.events.countP Event.isSyncCpu = 0 ∧ r.events.countP Event.isMapRead = 0 ∧
      r.events.countP Event.isGpuSignal = 0 := by
  have hr := begin_ok_not_running s ctx prog vars d env r hb
  rcases Bool.eq_false_or_eq_true s.mStatsEnabled with he | he
  · obtain ⟨red, buf, ray, path, ctx1, evR, evT, hR, hT, rfl⟩ :=
      begin_enabled_ok s ctx prog vars d env r hr he hb
    rcases hR with ⟨_, _, rfl⟩ | ⟨_, _, _, rfl⟩ <;>
      rcases hT with ⟨_, _, _, _, rfl⟩ | ⟨_, _, _, _, _, _, _, _, rfl⟩ <;>
        exact ⟨rfl, rfl, rfl⟩
  · rw [begin_disabled s ctx prog vars d env hr he] at hb
    cases hb
    exact ⟨rfl, rfl, rfl⟩

theorem end_events_counts (s s1 : Logging) (ctx : RenderContext) (ev : List Event)
    (h : s.end_ ctx = .ok (s1, ev)) :
    ev.countP Event.isSyncCpu = 0 ∧ ev.countP Event.isMapRead = 0 ∧
      ev.countP Event.isGpuSignal = (if s.mStatsEnabled then 1 else 0) ∧
      s1.mWaitingForData = (s.mStatsEnabled || s.mWaitingForData) := by
  obtain ⟨_, ⟨he, rfl, rfl⟩ | ⟨he, red, ray, path, buf, _, _, _, _, rfl, rfl⟩⟩ :=
    end_ok s s1 ctx ev h
  · simp [he]
  · cases hf : s.mpFence <;> simp [he, endEvents, hf, List.countP_cons, Event.isSyncCpu,
      Event.isMapRead, Event.isGpuSignal]

theorem copy_events_counts (s s1 : Logging) (ev : List Event)
    (h : s.copyStatsToCPU = .ok (s1, ev)) :
    s1.mWaitingForData = false ∧ s1.mRunning = false ∧
    ev.countP Event.isSyncCpu = (if s.mWaitingForData then 1 else 0) ∧
      ev.countP Event.isMapRead ≤ ev.countP Event.isSyncCpu ∧
      ev.countP Event.isGpuSignal = 0 := by
  obtain ⟨hr, ⟨hw, rfl, rfl⟩ | ⟨hw, _, _, rfl, rfl⟩ | ⟨hw, _, _, _, buf, _, rfl, rfl⟩⟩ :=
    copy_ok s s1 ev h
  · simp [hw, hr]
  · simp [hw, hr, List.countP_cons, Event.isSyncCpu, Event.isMapRead, Event.isGpuSignal]
  · simp [hw, hr, List.countP_cons, Event.isSyncCpu, Event.isMapRead, Event.isGpuSignal]

theorem step_counts (σ σ1 : System) (c : Call) (ev : List Event)
    (h : σ.step c = .ok (σ1, ev)) :
    ev.countP Event.isSyncCpu + σ1.logging.pending ≤
        ev.countP Event.isGpuSignal + σ.logging.pending ∧
      ev.countP Event.isMapRead ≤ ev.countP Event.isSyncCpu := by
  cases c with
  | begin d env =>
    obtain ⟨r, hb, h2⟩ := bind_ok _ _ _ h
    cases h2
    obtain ⟨h1, h2, h3⟩ := begin_events_counts _ _ _ _ _ _ _ hb
    have hw : r.self.mWaitingForData = false :=
      (begin_inv_flags σ.logging σ.ctx σ.program σ.vars d env r hb).2.1
    simp [h1, h2, h3, Logging.pending, hw]
  | end_ =>
    obtain ⟨⟨s, e⟩, hb, h2⟩ := bind_ok _ _ _ h
    cases h2
    obtain ⟨h1, h2, h3, h4⟩ := end_events_counts _ _ _ _ hb
    simp only [h1, h2, h3, Logging.pending, h4]
    cases σ.logging.mStatsEnabled <;> cases σ.logging.mWaitingForData <;> simp
  | renderUI b =>
    obtain ⟨⟨s, e⟩, hb, h2⟩ := bind_ok _ _ _ h
    cases h2
    unfold Logging.renderUI at hb
    obtain ⟨⟨s2, e2⟩, hc, h3⟩ := bind_ok _ _ _ hb
    cases h3
    obtain ⟨h1, _, h2, h3, h4⟩ := copy_events_counts _ _ _ hc
    have e1 : ∀ p : Event → Bool, (∀ st, p (Event.text st) = false) →
        p (Event.checkbox "Traversal stats") = false → p Event.tooltip = false →
        List.countP p ([Event.checkbox "Traversal stats", Event.tooltip] ++ e2 ++
          (if s.mStatsValid = true then [Event.text s.mStats] else [])) =
        List.countP p e2 := by
      intro p hp1 hp2 hp3
      cases s.mStatsValid <;> simp [List.countP_cons, List.countP_append, hp1, hp2, hp3]
    rw [e1 Event.isSyncCpu (fun _ => rfl) rfl rfl, e1 Event.isMapRead (fun _ => rfl) rfl rfl,
      e1 Event.isGpuSignal (fun _ => rfl) rfl rfl]
    simp only [Logging.pending, h1, h2, h4]
    constructor
    · simp
    · simpa [h2] using h3
  | getStats out =>
    obtain ⟨g, hb, h2⟩ := bind_ok _ _ _ h
    cases h2
    obtain ⟨e2, hc, hg⟩ := getStats_ok _ _ _ hb
    obtain ⟨h1, _, h2, h3, h4⟩ := copy_events_counts _ _ _ hc
    have e1 : ∀ p : Event → Bool, p statsWarning = false →
        List.countP p g.events = List.countP p e2 := by
      intro p hp
      rw [hg]
      cases g.self.mStatsValid <;> simp [List.countP_append, List.countP_cons, hp]
    rw [e1 Event.isSyncCpu rfl, e1 Event.isMapRead rfl, e1 Event.isGpuSignal rfl]
    simp only [Logging.pending, h1, h2, h4]
    constructor
    · simp
    · simpa [h2] using h3
  | getRayCountBuffer =>
    obtain ⟨r, hb, h2⟩ := bind_ok _ _ _ h
    cases h2
    simp
  | gpuWrite id contents =>
    cases h
    simp

theorem run_counts (cs : List Call) (σ σ1 : System) (ev : List Event)
    (h : σ.run cs = .ok (σ1, ev)) :
    ev.countP Event.isSyncCpu + σ1.logging.pending ≤
        ev.countP Event.isGpuSignal + σ.logging.pending ∧
      ev.countP Event.isMapRead ≤ ev.countP Event.isSyncCpu := by
  induction cs generalizing σ ev with
  | nil =>
    cases h
    simp
  | cons c cs ih =>
    obtain ⟨σ2, ev1, ev2, h1, h2, rfl⟩ := run_cons_ok _ _ _ _ _ h
    obtain ⟨a1, a2⟩ := step_counts _ _ _ _ h1
    obtain ⟨b1, b2⟩ := ih σ2 ev2 h2
    simp only [List.countP_append]
    omega

theorem ui_idle (s s1 : Logging) (c : UiCall) (res : List (Bool × Stats))
    (h : s.ui c = .ok (s1, res)) : s1.mRunning = false ∧ s1.mWaitingForData = false := by
  cases c with
  | renderUI b =>
    obtain ⟨⟨s2, e⟩, hb, h2⟩ := bind_ok _ _ _ h
    cases h2
    unfold Logging.renderUI at hb
    obtain ⟨⟨s3, e3⟩, hc, h3⟩ := bind_ok _ _ _ hb
    cases h3
    obtain ⟨h1, h2, _⟩ := copy_events_counts _ _ _ hc
    exact ⟨h2, h1⟩
  | getStats out =>
    obtain ⟨g, hb, h2⟩ := bind_ok _ _ _ h
    cases h2
    obtain ⟨e2, hc, _⟩ := getStats_ok _ _ _ hb
    obtain ⟨h1, h2, _⟩ := copy_events_counts _ _ _ hc
    exact ⟨h2, h1⟩

theorem getStats_idle (s : Logging) (out : Stats) (hr : s.mRunning = false)
    (hw : s.mWaitingForData = false) :
    s.getStats out =
      .ok ⟨s.mStatsValid, if s.mStatsValid then s.mStats else out, s,
           if s.mStatsValid then [] else [statsWarning]⟩ := by
  rw [getStats_of_copy s s out [] (copy_idle s hr hw)]
  cases s.mStatsValid <;> simp

theorem renderUI_idle (s : Logging) (b : Bool) (hr : s.mRunning = false)
    (hw : s.mWaitingForData = false) :
    s.renderUI b =
      .ok ({ s with mStatsEnabled := b },
           [Event.checkbox "Traversal stats", Event.tooltip] ++
             if s.mStatsValid then [Event.text s.mStats] else []) := by
  have hc := copy_idle { s with mStatsEnabled := b } hr hw
  simp only [Logging.renderUI, hc, Outcome.bind]
  cases s.mStatsValid <;> simp

/-- C7 (as amended): `begin` and `end` never wait on the fence and never map the readback
buffer, and `end` inserts a fence signal exactly when statistics are enabled. Over every
sequence of calls from a fresh object there are at most as many fence waits as fence signals
and at most as many buffer maps as fence waits, so a wait and a map happen only in `renderUI`
or `getStats`, only after an `end` with statistics enabled and at most once per such `end`.
After a `renderUI` or `getStats` has returned, a further `getStats` makes no call into the
engine besides the warning, leaves the object as it is and reports the stored stats, and a
further `renderUI` makes no call besides the widgets, reports the same stats and changes
nothing but `mStatsEnabled`, which it sets to the value of the checkbox. -/
theorem deferred_readback :
    (∀ (s : Logging) (ctx : RenderContext) (prog : RtProgram) (vars : RtProgramVars)
        (d : UVec2) (env : BeginEnv) (r : BeginResult),
      s.begin ctx prog vars d env = .ok r →
      r.events.countP Event.isSyncCpu = 0 ∧ r.events.countP Event.isMapRead = 0) ∧
    (∀ (s s1 : Logging) (ctx : RenderContext) (ev : List Event),
      s.end_ ctx = .ok (s1, ev) →
      ev.countP Event.isSyncCpu = 0 ∧ ev.countP Event.isMapRead = 0 ∧
        ev.countP Event.isGpuSignal = (if s.mStatsEnabled then 1 else 0)) ∧
    (∀ (b : Bool) (ctx : RenderContext) (prog : RtProgram) (vars : RtProgramVars)
        (calls : List Call) (σ : System) (ev : List Event),
      (System.initial b ctx prog vars).run calls = .ok (σ, ev) →
      ev.countP Event.isSyncCpu ≤ ev.countP Event.isGpuSignal ∧
        ev.countP Event.isMapRead ≤ ev.countP Event.isSyncCpu) ∧
    (∀ (s s1 : Logging) (c : UiCall) (res : List (Bool × Stats)),
      s.ui c = .ok (s1, res) →
      (∀ out, s1.getStats out =
        .ok ⟨s1.mStatsValid, if s1.mStatsValid then s1.mStats else out, s1,
             if s1.mStatsValid then [] else [statsWarning]⟩) ∧
      (∀ checked, s1.renderUI checked =
        .ok ({ s1 with mStatsEnabled := checked },
             [Event.checkbox "Traversal stats", Event.tooltip] ++
               if s1.mStatsValid then [Event.text s1.mStats] else []))) := by
  refine ⟨?_, ?_, ?_, ?_⟩
  · intro s ctx prog vars d env r hb
    obtain ⟨h1, h2, _⟩ := begin_events_counts s ctx prog vars d env r hb
    exact ⟨h1, h2⟩
  · intro s s1 ctx ev h
    obtain ⟨h1, h2, h3, _⟩ := end_events_counts s s1 ctx ev h
    exact ⟨h1, h2, h3⟩
  · intro b ctx prog vars calls σ ev h
    obtain ⟨h1, h2⟩ := run_counts calls _ _ _ h
    have h0 : (System.initial b ctx prog vars).logging.pending = 0 := rfl
    rw [h0] at h1
    exact ⟨by omega, h2⟩
  · intro s s1 c res h
    obtain ⟨hr, hw⟩ := ui_idle s s1 c res h
    exact ⟨fun out => getStats_idle s1 out hr hw, fun b => renderUI_idle s1 b hr hw⟩

/-- An instance of the theorem above: after `begin; end; getStats` on a fresh object a second
`getStats` and a `renderUI` that keeps the checkbox set. -/
theorem deferred_readback_witness :
    (∀ out, afterGetStats.logging.getStats out =
      .ok ⟨afterGetStats.logging.mStatsValid,
           if afterGetStats.logging.mStatsValid then afterGetStats.logging.mStats else out,
           afterGetStats.logging,
           if afterGetStats.logging.mStatsValid then [] else [statsWarning]⟩) ∧
    (∀ checked, afterGetStats.logging.renderUI checked =
      .ok ({ afterGetStats.logging with mStatsEnabled := checked },
           [Event.checkbox "Traversal stats", Event.tooltip] ++
             if afterGetStats.logging.mStatsValid then [Event.text afterGetStats.logging.mStats]
             else [])) :=
  deferred_readback.2.2.2 afterEnd.logging afterGetStats.logging (.getStats Stats.zero)
    [(true, afterGetStats.logging.mStats)] rfl

/-- C7 fails as stated: after `begin; end; getStats` the readback is done, and a following
`renderUI` in which the checkbox is cleared performs no fence wait and no map but does change
the state: `mStatsEnabled` goes from `true` to `false`. -/
theorem second_renderUI_changes_state :
    ∃ s ev,
      afterEnd.logging.getStats Stats.zero =
        .ok ⟨true, afterGetStats.logging.mStats, afterGetStats.logging,
             [Event.syncCpu, Event.mapRead, Event.unmap]⟩ ∧
      afterGetStats.logging.renderUI false = .ok (s, ev) ∧
      ev.countP Event.isSyncCpu = 0 ∧ ev.countP Event.isMapRead = 0 ∧
      afterGetStats.logging.mStatsEnabled = true ∧ s.mStatsEnabled = false ∧
      s ≠ afterGetStats.logging :=
  ⟨_, _, rfl, rfl, rfl, rfl, rfl, rfl, fun h => Bool.noConfusion (congrArg Logging.mStatsEnabled h)⟩

/-! ## C8: `begin` invalidates what was stored -/

/-- C8: from every non-running state, a `begin` that returns leaves the stored stats equal to
`Stats()` and `mStatsValid`, `mStatsBuffersValid` and `mWaitingForData` false, whether or not
statistics are enabled (with statistics disabled it always returns), so a readback still
pending is dropped; and after `begin; end` with statistics disabled `getStats` returns
`false` and `getRayCountBuffer` returns null, whatever was stored before. -/
theorem begin_invalidates :
    (∀ (s : Logging) (ctx : RenderContext) (prog : RtProgram) (vars : RtProgramVars)
        (d : UVec2) (env : BeginEnv) (r : BeginResult),
      s.mRunning = false → s.begin ctx prog vars d env = .ok r →
      r.self.mStats = Stats.zero ∧ r.self.mStatsValid = false ∧
        r.self.mStatsBuffersValid = false ∧ r.self.mWaitingForData = false) ∧
    (∀ (s : Logging) (ctx : RenderContext) (prog : RtProgram) (vars : RtProgramVars)
        (d : UVec2) (env : BeginEnv) (out : Stats),
      s.mRunning = false → s.mStatsEnabled = false →
      ∃ r s2 g, s.begin ctx prog vars d env = .ok r ∧ r.self.end_ r.ctx = .ok (s2, []) ∧
        s2.getStats out = .ok g ∧ g.ret = false ∧ g.stats = out ∧
        g.events = [statsWarning] ∧ s2.getRayCountBuffer = .ok none) := by
  refine ⟨?_, getStats_after_disabled_frame⟩
  intro s ctx prog vars d env r _ hb
  obtain ⟨_, h2, _, h4, h5, h6, _⟩ := begin_inv_flags s ctx prog vars d env r hb
  exact ⟨h4, h5, h6, h2⟩

/-- An instance of the theorem above: a frame with valid stats has been read back, the
checkbox is cleared, and the next frame runs with statistics disabled. -/
theorem begin_invalidates_witness :
    afterGetStats.logging.mStatsValid = true ∧
    afterGetStats.logging.mStatsBuffersValid = true ∧
    ∃ r s2 g,
      Logging.begin { afterGetStats.logging with mStatsEnabled := false } afterGetStats.ctx
        afterGetStats.program afterGetStats.vars ⟨2, 2⟩ goodEnv = .ok r ∧
      r.self.end_ r.ctx = .ok (s2, []) ∧
      s2.getStats ⟨7, 1, 2⟩ = .ok g ∧ g.ret = false ∧ g.stats = ⟨7, 1, 2⟩ ∧
      g.events = [statsWarning] ∧ s2.getRayCountBuffer = .ok none :=
  ⟨rfl, rfl,
    begin_invalidates.2 { afterGetStats.logging with mStatsEnabled := false } afterGetStats.ctx
      afterGetStats.program afterGetStats.vars ⟨2, 2⟩ goodEnv ⟨7, 1, 2⟩ rfl rfl⟩

/-! ## C9: null safety -/

theorem copy_derefNull (s : Logging)
    (h : s.mWaitingForData = true →
      s.mpFence.isSome = true ∧ s.mpReductionResult.isSome = true) :
    s.copyStatsToCPU.derefNull = false := by
  rcases Bool.eq_false_or_eq_true s.mRunning with hr | hr
  · rw [copy_running s hr]
    rfl
  rcases Bool.eq_false_or_eq_true s.mWaitingForData with hw | hw
  swap
  · rw [copy_idle s hr hw]
    rfl
  obtain ⟨hf, hb⟩ := h hw
  obtain ⟨f, hf⟩ := Option.isSome_iff_exists.mp hf
  obtain ⟨buf, hb⟩ := Option.isSome_iff_exists.mp hb
  rcases Bool.eq_false_or_eq_true s.mStatsEnabled with he | he
  swap
  · rw [copy_disabled s f hr hw hf he]
    rfl
  by_cases hn : s.numPixels = 0
  · rw [copy_enabled_zero s f buf hr hw hf he hb hn]
    rfl
  · rw [copy_enabled s f buf hr hw hf he hb hn]
    rfl

theorem bind_derefNull {α β : Type} (o : Outcome α) (f : α → Outcome β)
    (ho : o.derefNull = false) (hf : ∀ a, (f a).derefNull = false) :
    (o.bind f).derefNull = false := by
  cases o with
  | ok a => exact hf a
  | assertFailed c => rfl
  | threw w => rfl
  | nullDeref p => cases ho

theorem inv_waiting (s : Logging) (h : s.Inv) (hw : s.mWaitingForData = true) :
    s.mpFence.isSome = true ∧ s.mpReductionResult.isSome = true := by
  obtain ⟨hf, hbv⟩ := h.waiting hw
  obtain ⟨hred, _⟩ := h.buffers_valid hbv
  obtain ⟨b, hb, _⟩ := h.buffer_of_reduction hred
  exact ⟨hf, by simp [hb]⟩

theorem inv_end_returns (s : Logging) (ctx : RenderContext) (h : s.Inv)
    (hr : s.mRunning = true) : ∃ s1 ev, s.end_ ctx = .ok (s1, ev) := by
  rcases Bool.eq_false_or_eq_true s.mStatsEnabled with he | he
  · obtain ⟨hred, ray, hray, _⟩ := h.running_enabled hr he
    obtain ⟨red, hred⟩ := Option.isSome_iff_exists.mp hred
    obtain ⟨path, hpath, _⟩ := h.textures_paired ray hray
    obtain ⟨buf, hbuf, _⟩ := h.buffer_of_reduction (by simp [hred])
    exact ⟨_, _, end_enabled s ctx red ray path buf hr he hred hray hpath hbuf⟩
  · exact ⟨_, _, end_disabled s ctx hr he⟩

theorem running_step (σ σ1 : System) (c : Call) (ev : List Event)
    (hr : σ.logging.mRunning = true) (h : σ.step c = .ok (σ1, ev)) :
    σ1.logging.mStatsEnabled = σ.logging.mStatsEnabled ∧
      (c = .end_ ∨ ∃ id contents, c = .gpuWrite id contents) := by
  cases c with
  | begin d env =>
    obtain ⟨r, hb, _⟩ := bind_ok _ _ _ h
    rw [begin_running _ _ _ _ _ _ hr] at hb
    cases hb
  | end_ =>
    obtain ⟨⟨s, e⟩, hb, h2⟩ := bind_ok _ _ _ h
    cases h2
    obtain ⟨_, ⟨_, rfl, _⟩ | ⟨_, _, _, _, _, _, _, _, _, rfl, _⟩⟩ := end_ok _ _ _ _ hb <;>
      exact ⟨rfl, Or.inl rfl⟩
  | renderUI b =>
    obtain ⟨⟨s, e⟩, hb, _⟩ := bind_ok _ _ _ h
    unfold Logging.renderUI at hb
    obtain ⟨⟨s3, e3⟩, hc, _⟩ := bind_ok _ _ _ hb
    rw [copy_running { σ.logging with mStatsEnabled := b } hr] at hc
    cases hc
  | getStats out =>
    obtain ⟨g, hb, _⟩ := bind_ok _ _ _ h
    obtain ⟨e2, hc, _⟩ := getStats_ok _ _ _ hb
    rw [copy_running _ hr] at hc
    cases hc
  | getRayCountBuffer =>
    obtain ⟨r, hb, _⟩ := bind_ok _ _ _ h
    simp [Logging.getRayCountBuffer, hr] at hb
  | gpuWrite id contents =>
    cases h
    exact ⟨rfl, Or.inr ⟨id, contents, rfl⟩⟩

/-- C9: in every reachable state, running with statistics enabled implies that the helper, the
readback buffer and both textures are there, and a pending readback implies that the fence and
the readback buffer are there; so `end`, `copyStatsToCPU`, `renderUI` and `getStats` never
dereference a null pointer, and `end` returns in every running state. Between `begin` and
`end` the flag `mStatsEnabled` cannot change: `renderUI` stops at its assertion, and the only
calls that return are `end` and device writes, which leave the flag alone. -/
theorem null_safety (σ : System) (hreach : Reachable σ) :
    (σ.logging.mRunning = true → σ.logging.mStatsEnabled = true →
      σ.logging.mpParallelReduction.isSome = true ∧
      σ.logging.mpReductionResult.isSome = true ∧
      σ.logging.mpStatsRayCount.isSome = true ∧
      σ.logging.mpStatsPathLength.isSome = true) ∧
    (σ.logging.mWaitingForData = true →
      σ.logging.mpFence.isSome = true ∧ σ.logging.mpReductionResult.isSome = true) ∧
    (σ.logging.end_ σ.ctx).derefNull = false ∧
    (σ.logging.mRunning = true → ∃ s1 ev, σ.logging.end_ σ.ctx = .ok (s1, ev)) ∧
    σ.logging.copyStatsToCPU.derefNull = false ∧
    (∀ checked, (σ.logging.renderUI checked).derefNull = false) ∧
    (∀ out, (σ.logging.getStats out).derefNull = false) ∧
    (σ.logging.mRunning = true →
      (∀ checked, σ.logging.renderUI checked = .assertFailed "!mRunning") ∧
      ∀ c σ1 ev, σ.step c = .ok (σ1, ev) →
        σ1.logging.mStatsEnabled = σ.logging.mStatsEnabled ∧
          (c = .end_ ∨ ∃ id contents, c = .gpuWrite id contents)) := by
  have hinv := reachable_inv σ hreach
  have hcopy := copy_derefNull σ.logging (inv_waiting _ hinv)
  refine ⟨?_, inv_waiting _ hinv, ?_, inv_end_returns _ _ hinv, hcopy, ?_, ?_, ?_⟩
  · intro hr he
    obtain ⟨hred, ray, hray, _⟩ := hinv.running_enabled hr he
    obtain ⟨path, hpath, _⟩ := hinv.textures_paired ray hray
    obtain ⟨buf, hbuf, _⟩ := hinv.buffer_of_reduction hred
    simp [hred, hray, hpath, hbuf]
  · rcases Bool.eq_false_or_eq_true σ.logging.mRunning with hr | hr
    · obtain ⟨s1, ev, h⟩ := inv_end_returns _ σ.ctx hinv hr
      rw [h]
      rfl
    · rw [end_not_running _ _ hr]
      rfl
  · intro b
    exact bind_derefNull _ _
      (copy_derefNull { σ.logging with mStatsEnabled := b }
        (fun hw => inv_waiting σ.logging hinv hw))
      (fun _ => rfl)
  · intro out
    refine bind_derefNull _ _ hcopy (fun a => ?_)
    dsimp only
    split <;> rfl
  · intro hr
    refine ⟨fun b => ?_, fun c σ1 ev h => running_step σ σ1 c ev hr h⟩
    have hc := copy_running { σ.logging with mStatsEnabled := b } hr
    simp only [Logging.renderUI, hc, Outcome.bind]

/-- An instance of the theorem above: the state after the first `begin` of a fresh object with the
checkbox set. -/
theorem null_safety_witness :
    afterBegin.logging.mRunning = true ∧ afterBegin.logging.mStatsEnabled = true ∧
    afterBegin.logging.mpParallelReduction.isSome = true ∧
    afterBegin.logging.mpReductionResult.isSome = true ∧
    afterBegin.logging.mpStatsRayCount.isSome = true ∧
    afterBegin.logging.mpStatsPathLength.isSome = true ∧
    ∃ s1 ev, afterBegin.logging.end_ afterBegin.ctx = .ok (s1, ev) :=
  ⟨rfl, rfl, ((null_safety afterBegin afterBegin_reachable).1 rfl rfl).1,
    ((null_safety afterBegin afterBegin_reachable).1 rfl rfl).2.1,
    ((null_safety afterBegin afterBegin_reachable).1 rfl rfl).2.2.1,
    ((null_safety afterBegin afterBegin_reachable).1 rfl rfl).2.2.2,
    (null_safety afterBegin afterBegin_reachable).2.2.2.1 rfl⟩

/-! ## C10: the validity flags -/

theorem history_cons (σ σ1 : System) (c : Call) (cs : List Call) (ev : List Event)
    (h : σ.step c = .ok (σ1, ev)) :
    σ.history (c :: cs) = (σ, c) :: σ1.history cs := by
  simp only [System.history, h]

theorem history_any_begin (cs : List Call) (σ σ1 : System) (ev : List Event)
    (h : σ.run cs = .ok (σ1, ev)) :
    (σ.history cs).any (fun e => e.2.isBegin) = cs.any Call.isBegin := by
  induction cs generalizing σ ev with
  | nil => rfl
  | cons c cs ih =>
    obtain ⟨σ2, ev1, ev2, h1, h2, _⟩ := run_cons_ok _ _ _ _ _ h
    rw [history_cons σ σ2 c cs ev1 h1]
    simp only [List.any_cons, ih σ2 ev2 h2]

theorem copy_keeps (s s1 : Logging) (ev : List Event) (h : s.copyStatsToCPU = .ok (s1, ev)) :
    s1.mStatsBuffersValid = s.mStatsBuffersValid ∧ s1.mFrameDim = s.mFrameDim ∧
      s1.mpStatsRayCount = s.mpStatsRayCount ∧ s1.mStatsEnabled = s.mStatsEnabled := by
  obtain ⟨_, ⟨_, rfl, _⟩ | ⟨_, _, _, rfl, _⟩ | ⟨_, _, _, _, _, _, rfl, _⟩⟩ :=
    copy_ok _ _ _ h <;> exact ⟨rfl, rfl, rfl, rfl⟩

theorem step_buffersValid (σ σ1 : System) (c : Call) (ev : List Event)
    (h : σ.step c = .ok (σ1, ev)) :
    σ1.logging.mStatsBuffersValid =
      (match c with
       | .begin _ _ => false
       | .end_ => (σ.logging.mStatsEnabled || σ.logging.mStatsBuffersValid)
       | _ => σ.logging.mStatsBuffersValid) := by
  cases c with
  | begin d env =>
    obtain ⟨r, hb, h2⟩ := bind_ok _ _ _ h
    cases h2
    exact (begin_inv_flags _ _ _ _ _ _ _ hb).2.2.2.2.2.1
  | end_ =>
    obtain ⟨⟨s, e⟩, hb, h2⟩ := bind_ok _ _ _ h
    cases h2
    obtain ⟨_, ⟨he, rfl, _⟩ | ⟨he, _, _, _, _, _, _, _, _, rfl, _⟩⟩ := end_ok _ _ _ _ hb <;>
      simp [he]
  | renderUI b =>
    obtain ⟨⟨s, e⟩, hb, h2⟩ := bind_ok _ _ _ h
    cases h2
    unfold Logging.renderUI at hb
    obtain ⟨⟨s3, e3⟩, hc, h3⟩ := bind_ok _ _ _ hb
    cases h3
    obtain ⟨_, ⟨_, rfl, _⟩ | ⟨_, _, _, rfl, _⟩ | ⟨_, _, _, _, _, _, rfl, _⟩⟩ :=
      copy_ok _ _ _ hc <;> rfl
  | getStats out =>
    obtain ⟨g, hb, h2⟩ := bind_ok _ _ _ h
    cases h2
    obtain ⟨e2, hc, _⟩ := getStats_ok _ _ _ hb
    exact (copy_keeps _ _ _ hc).1
  | getRayCountBuffer =>
    obtain ⟨r, hb, h2⟩ := bind_ok _ _ _ h
    cases h2
    rfl
  | gpuWrite id contents =>
    cases h
    rfl

theorem run_buffersValid (cs : List Call) (σ σ1 : System) (ev : List Event)
    (h : σ.run cs = .ok (σ1, ev)) :
    σ1.logging.mStatsBuffersValid =
      (if cs.any Call.isBegin then endedWithStatsSinceBegin (σ.history cs)
       else (σ.logging.mStatsBuffersValid || endedWithStatsSinceBegin (σ.history cs))) := by
  induction cs generalizing σ ev with
  | nil =>
    cases h
    simp [System.history, endedWithStatsSinceBegin]
  | cons c cs ih =>
    obtain ⟨σ2, ev1, ev2, h1, h2, _⟩ := run_cons_ok _ _ _ _ _ h
    have hstep := step_buffersValid σ σ2 c ev1 h1
    have hih := ih σ2 ev2 h2
    rw [history_cons σ σ2 c cs ev1 h1]
    simp only [endedWithStatsSinceBegin, history_any_begin cs σ2 σ1 ev2 h2, List.any_cons]
    rw [hih]
    cases hany : cs.any Call.isBegin
    · cases c <;> simp [Call.isBegin, hstep]
      all_goals cases σ.logging.mStatsEnabled <;> cases σ.logging.mStatsBuffersValid <;> simp
    · simp

theorem copy_statsInv (s s1 : Logging) (ev : List Event) (h : s.StatsInv)
    (hc : s.copyStatsToCPU = .ok (s1, ev)) : s1.StatsInv := by
  obtain ⟨_, ⟨_, rfl, _⟩ | ⟨_, _, _, rfl, _⟩ | ⟨_, _, _, hn, buf, _, rfl, _⟩⟩ := copy_ok _ _ _ hc
  · exact h
  · exact h
  · intro _
    exact ⟨hn, rfl⟩

theorem step_statsInv (σ σ1 : System) (c : Call) (ev : List Event) (h : σ.logging.StatsInv)
    (hs : σ.step c = .ok (σ1, ev)) : σ1.logging.StatsInv := by
  cases c with
  | begin d env =>
    obtain ⟨r, hb, h2⟩ := bind_ok _ _ _ hs
    cases h2
    intro hv
    rw [(begin_inv_flags _ _ _ _ _ _ _ hb).2.2.2.2.1] at hv
    cases hv
  | end_ =>
    obtain ⟨⟨s, e⟩, hb, h2⟩ := bind_ok _ _ _ hs
    cases h2
    obtain ⟨_, ⟨_, rfl, _⟩ | ⟨_, _, _, _, _, _, _, _, _, rfl, _⟩⟩ := end_ok _ _ _ _ hb
    · exact h
    · exact h
  | renderUI b =>
    obtain ⟨⟨s, e⟩, hb, h2⟩ := bind_ok _ _ _ hs
    cases h2
    unfold Logging.renderUI at hb
    obtain ⟨⟨s3, e3⟩, hc, h3⟩ := bind_ok _ _ _ hb
    cases h3
    exact copy_statsInv { σ.logging with mStatsEnabled := b } _ _ h hc
  | getStats out =>
    obtain ⟨g, hb, h2⟩ := bind_ok _ _ _ hs
    cases h2
    obtain ⟨e2, hc, _⟩ := getStats_ok _ _ _ hb
    exact copy_statsInv _ _ _ h hc
  | getRayCountBuffer =>
    obtain ⟨r, hb, h2⟩ := bind_ok _ _ _ hs
    cases h2
    exact h
  | gpuWrite id contents =>
    cases hs
    exact h

theorem run_statsInv (cs : List Call) (σ σ1 : System) (ev : List Event)
    (h : σ.logging.StatsInv) (hs : σ.run cs = .ok (σ1, ev)) : σ1.logging.StatsInv := by
  induction cs generalizing σ ev with
  | nil =>
    cases hs
    exact h
  | cons c cs ih =>
    obtain ⟨σ2, ev1, ev2, h1, h2, _⟩ := run_cons_ok _ _ _ _ _ hs
    exact ih σ2 ev2 (step_statsInv _ _ _ _ h h1) h2

theorem getRayCountBuffer_idle (s : Logging) (hr : s.mRunning = false) :
    s.getRayCountBuffer = .ok (if s.mStatsBuffersValid then s.mpStatsRayCount else none) := by
  simp [Logging.getRayCountBuffer, hr]

/-- C10: after every sequence of calls from a freshly created object that all returned:
`mStatsValid` implies `mStatsBuffersValid` and that no readback is pending; a pending readback
implies `mStatsBuffersValid`; while running all three flags are false. Whenever `getStats`
returns `true`, `getRayCountBuffer` returns a texture, and its size is the stored frame
dimension, over whose pixel count the stored average was taken. In a non-running state
`getRayCountBuffer` returns null exactly when no frame has been ended with statistics enabled
since the last `begin`. -/
theorem validity_flags (b : Bool) (ctx : RenderContext) (prog : RtProgram)
    (vars : RtProgramVars) (calls : List Call) (σ : System) (ev : List Event)
    (hrun : (System.initial b ctx prog vars).run calls = .ok (σ, ev)) :
    (σ.logging.mStatsValid = true →
      σ.logging.mStatsBuffersValid = true ∧ σ.logging.mWaitingForData = false) ∧
    (σ.logging.mWaitingForData = true → σ.logging.mStatsBuffersValid = true) ∧
    (σ.logging.mRunning = true →
      σ.logging.mStatsValid = false ∧ σ.logging.mStatsBuffersValid = false ∧
        σ.logging.mWaitingForData = false) ∧
    (∀ out g, σ.logging.getStats out = .ok g → g.ret = true →
      ∃ t, g.self.getRayCountBuffer = .ok (some t) ∧
        t.width = g.self.mFrameDim.x ∧ t.height = g.self.mFrameDim.y ∧
        g.self.numPixels ≠ 0 ∧
        g.stats.avgRaysPerPixel =
          (uint32ToFloat g.stats.totalRays : ℚ) / (uint32ToFloat g.self.numPixels : ℚ)) ∧
    (σ.logging.mRunning = false →
      (σ.logging.getRayCountBuffer = .ok none ↔
        endedWithStatsSinceBegin ((System.initial b ctx prog vars).history calls) = false)) := by
  have hinv : σ.logging.Inv := run_inv calls _ _ _ (create_inv b) hrun
  have hsinv : σ.logging.StatsInv :=
    run_statsInv calls _ _ _ (fun h => by cases h) hrun
  refine ⟨hinv.valid, fun hw => (hinv.waiting hw).2, hinv.running, ?_, ?_⟩
  · intro out g hg hret
    obtain ⟨e2, hc, hgeq⟩ := getStats_ok _ _ _ hg
    have hinv1 := copyStatsToCPU_inv _ _ _ hinv hc
    have hsinv1 := copy_statsInv _ _ _ hsinv hc
    have hr1 : g.self.mRunning = false := (copy_events_counts _ _ _ hc).2.1
    have hv : g.self.mStatsValid = true := by
      cases hv : g.self.mStatsValid
      · rw [hv] at hgeq
        rw [hgeq] at hret
        simp at hret
      · rfl
    have hstats : g.stats = g.self.mStats := by
      rw [hv] at hgeq
      simp only [if_true] at hgeq
      rw [hgeq]
    obtain ⟨hbv, _⟩ := hinv1.valid hv
    obtain ⟨_, t, ht, hw, hh⟩ := hinv1.buffers_valid hbv
    obtain ⟨hn, havg⟩ := hsinv1 hv
    refine ⟨t, ?_, hw, hh, hn, ?_⟩
    · rw [getRayCountBuffer_idle _ hr1, hbv, ht]
      rfl
    · rw [hstats]
      exact havg
  · intro hr
    have hbv := run_buffersValid calls _ _ _ hrun
    have h0 : (System.initial b ctx prog vars).logging.mStatsBuffersValid = false := rfl
    rw [h0] at hbv
    have hbv2 : σ.logging.mStatsBuffersValid =
        endedWithStatsSinceBegin ((System.initial b ctx prog vars).history calls) := by
      rw [hbv]
      cases calls.any Call.isBegin <;> simp
    rw [← hbv2, getRayCountBuffer_idle _ hr]
    cases hv : σ.logging.mStatsBuffersValid
    · simp
    · obtain ⟨_, t, ht, _⟩ := hinv.buffers_valid hv
      simp [ht]

/-- An instance of the theorem above: `begin; end; getStats` on a fresh object with the checkbox
set. -/
theorem validity_flags_witness :
    (afterGetStats.logging.mStatsValid = true →
      afterGetStats.logging.mStatsBuffersValid = true ∧
        afterGetStats.logging.mWaitingForData = false) ∧
    (afterGetStats.logging.mRunning = false →
      (afterGetStats.logging.getRayCountBuffer = .ok none ↔
        endedWithStatsSinceBegin
          (freshEnabled.history [.begin ⟨2, 2⟩ goodEnv, .end_, .getStats Stats.zero]) =
            false)) :=
  ⟨(validity_flags true emptyContext emptyProgram emptyVars
      [.begin ⟨2, 2⟩ goodEnv, .end_, .getStats Stats.zero] afterGetStats _ rfl).1,
   (validity_flags true emptyContext emptyProgram emptyVars
      [.begin ⟨2, 2⟩ goodEnv, .end_, .getStats Stats.zero] afterGetStats _ rfl).2.2.2.2⟩

end PathTracer
